import Mathlib

/-!
Verification of the confirmation-gated mutation engine of the
haltman-io/mail-forwarding-api repository.

The JavaScript source is shallowly embedded: every SQL statement is
modelled as a pure function over an explicit list of rows, every
controller as a pure function from request data and store state to a
tagged response and a new state, and every source of randomness
(random byte streams, random integers, surrogate ids, the clock) is
passed in as an explicit argument.  Times are integers (milliseconds),
statuses are a closed inductive type mirroring the string tags
'pending' / 'confirmed' / 'expired'.

SHA-256 digests are only ever compared for equality by the code, so the
digest of a plaintext is modelled by an injective coding (the identity
on strings); the stored token_hash column holds that coding.
-/

namespace MailFwd

/-! ## JavaScript string primitives used by the embedded code -/

/-- Whitespace test used by the model of JavaScript String.prototype.trim. -/
def wsChar (c : Char) : Bool :=
  c == ' ' || c == '\t' || c == '\n' || c == '\r'

/-- Trim the character list on both ends, as String.prototype.trim does. -/
def trimChars (l : List Char) : List Char :=
  ((l.dropWhile wsChar).reverse.dropWhile wsChar).reverse

/-- Model of JavaScript s.trim(). -/
def jsTrim (s : String) : String :=
  String.mk (trimChars s.data)

/-- Model of JavaScript s.trim().toLowerCase() (ASCII case fold). -/
def jsLowerTrim (s : String) : String :=
  String.mk ((trimChars s.data).map Char.toLower)

/-- Model of JavaScript s.padStart(len, c). -/
def jsPadStart (s : String) (len : Nat) (c : Char) : String :=
  String.mk (List.replicate (len - s.data.length) c ++ s.data)

/-- Decimal digit characters, indexed by digit value. -/
def digitChars : List Char :=
  ['0', '1', '2', '3', '4', '5', '6', '7', '8', '9']

/-- Character for one decimal digit. -/
def natDigitChar (d : Nat) : Char :=
  digitChars.getD d '0'

/-- Model of JavaScript String(n) for a natural number: its decimal
representation (Nat.digits is little-endian, hence the reverse). -/
def jsNatToString (n : Nat) : String :=
  if n = 0 then "0" else String.mk (((Nat.digits 10 n).reverse).map natDigitChar)

/-! ## src/app/src/lib/confirmation-code.js -/

/-- CONFIRMATION_CODE_LENGTH constant. -/
def CONFIRMATION_CODE_LENGTH : Nat := 6

/-- Model of generateConfirmationCode: String(crypto.randomInt(0, 1_000_000))
padded on the left with zeros to 6 characters.  The random draw rnd is the
explicit argument; crypto.randomInt(0, 1_000_000) guarantees rnd < 1000000. -/
def generateConfirmationCode (rnd : Nat) : String :=
  jsPadStart (jsNatToString rnd) CONFIRMATION_CODE_LENGTH '0'

/-- Model of normalizeConfirmationCode: non-strings become the empty string,
strings are trimmed.  The option models a missing / non-string query value. -/
def normalizeConfirmationCode (v : Option String) : String :=
  match v with
  | none => ""
  | some s => jsTrim s

/-- Model of isConfirmationCodeValid: the regular expression test
matching exactly six decimal digits. -/
def isConfirmationCodeValid (code : String) : Bool :=
  code.data.length == 6 && code.data.all Char.isDigit

/-! ## Base62 token generator
(src/app/src/repositories/api-token-requests-repository.js, generateBase62Token) -/

/-- The BASE62 alphabet of the source. -/
def BASE62 : List Char :=
  "0123456789ABCDEFGHIJKLMNOPQRSTUVWXYZabcdefghijklmnopqrstuvwxyz".data

/-- Rejection sampling of the random byte stream: bytes below 248 are mapped
to BASE62[x % 62], the rest are discarded. -/
def base62Accept (bytes : List Nat) : List Char :=
  bytes.filterMap (fun x => if x < 248 then some (BASE62.getD (x % 62) '0') else none)

/-- Minimum token length accepted by generateBase62Token. -/
def MIN_TOKEN_LEN : Nat := 12

/-- Maximum token length accepted by generateBase62Token. -/
def MAX_TOKEN_LEN : Nat := 64

/-- Model of generateBase62Token: the first len accepted characters drawn from
the explicit random byte stream.  The source throws unless
MIN_TOKEN_LEN <= len <= MAX_TOKEN_LEN; theorems carry that as a hypothesis,
together with the stream being long enough. -/
def generateBase62Token (len : Nat) (bytes : List Nat) : String :=
  String.mk ((base62Accept bytes).take len)

/-- Model of normalizeTokenLength: out-of-range or non-finite requested
lengths fall back to 20. -/
def normalizeTokenLength (v : Int) : Nat :=
  if MIN_TOKEN_LEN ≤ v ∧ v ≤ MAX_TOKEN_LEN then v.toNat else 20


/-! ## src/app/src/repositories/api-token-requests-repository.js:
isRetryableTxError and withTxRetry -/

/-- Shape of a thrown database error: its code string and errno number. -/
structure JsError where
  code : String
  errno : Int
deriving DecidableEq, Repr

/-- Model of isRetryableTxError: deadlock or lock-wait-timeout signals,
matched by code string or errno (1213 / 1205). -/
def isRetryableTxError (e : JsError) : Bool :=
  e.code == "ER_LOCK_DEADLOCK" || e.code == "ER_LOCK_WAIT_TIMEOUT" ||
    e.errno == 1213 || e.errno == 1205

/-- Outcome of withTxRetry: a value, the distinct tx_busy condition wrapping
the last transient cause, or a propagated non-transient error. -/
inductive TxOutcome (α : Type) where
  | ok (v : α)
  | busy (cause : JsError)
  | err (e : JsError)
deriving DecidableEq, Repr

/-- One run of withTxRetry, given the outcome of each attempt of the unit of
work (fn k is what the k-th call of withTx(fn) produces).  Returns the overall
outcome paired with how many attempts were made.  The fuel argument equals the
number of loop iterations still allowed; the source loop runs attempt = 0
up to maxRetries inclusive. -/
def withTxRetryGo (fn : Nat → Except JsError α) (maxRetries : Nat) :
    Nat → Nat → TxOutcome α × Nat
  | _, 0 => (.err ⟨"tx_retry_exhausted", 0⟩, 0)
  | attempt, fuel + 1 =>
    match fn attempt with
    | .ok v => (.ok v, attempt + 1)
    | .error e =>
      if isRetryableTxError e = false ∨ maxRetries ≤ attempt then
        (if isRetryableTxError e then .busy e else .err e, attempt + 1)
      else
        withTxRetryGo fn maxRetries (attempt + 1) fuel

/-- Model of withTxRetry with an explicit maxRetries (the source default is
DEFAULT_RETRY_MAX = 2).  The randomized backoff sleep has no observable
effect in this model and is omitted. -/
def withTxRetry (fn : Nat → Except JsError α) (maxRetries : Nat) :
    TxOutcome α × Nat :=
  withTxRetryGo fn maxRetries 0 (maxRetries + 1)


/-! ## Pending confirmation rows of api_token_requests
(src/app/src/repositories/api-token-requests-repository.js) -/

/-- Row status, mirroring the string tags of the status column. -/
inductive Status where
  | pending
  | confirmed
  | expired
deriving DecidableEq, Repr

/-- One api_token_requests row.  Times are integer milliseconds. -/
structure TokenRow where
  id : Nat
  email : String
  tokenHash : String
  status : Status
  days : Int
  createdAt : Int
  expiresAt : Int
  confirmedAt : Option Int
  sendCount : Nat
  lastSentAt : Int
deriving DecidableEq, Repr

/-- Digest of a plaintext secret.  sha256Buffer is used by the source only
through equality of digests, so it is modelled by an injective coding of the
plaintext; the identity is the simplest such coding. -/
def digestOf (s : String) : String := s

/-- ORDER BY id DESC LIMIT 1 over a result set: the element with the
largest id, generic in the row type. -/
def maxById {α : Type} (idOf : α → Nat) (rs : List α) : Option α :=
  rs.foldl (fun acc r =>
    match acc with
    | none => some r
    | some a => if idOf a < idOf r then some r else some a) none

def latestBy (rs : List TokenRow) : Option TokenRow :=
  maxById TokenRow.id rs

/-- WHERE clause of getPendingByTokenHash: matching digest, status pending,
expires_at > NOW(6). -/
def tokenRowLive (hash : String) (now : Int) (r : TokenRow) : Bool :=
  r.tokenHash == hash && r.status == Status.pending && decide (now < r.expiresAt)

/-- Model of getPendingByTokenHash. -/
def getPendingByTokenHash (db : List TokenRow) (hash : String) (now : Int) :
    Option TokenRow :=
  latestBy (db.filter (tokenRowLive hash now))

/-- WHERE clause of markConfirmedById: matching id, status pending,
expires_at > NOW(6). -/
def confirmMatch (i : Nat) (now : Int) (r : TokenRow) : Bool :=
  r.id == i && r.status == Status.pending && decide (now < r.expiresAt)

/-- Effect of the confirm UPDATE on one row: rows matching the WHERE clause
become confirmed, all others are untouched. -/
def confirmApply (i : Nat) (now : Int) (r : TokenRow) : TokenRow :=
  if confirmMatch i now r then
    { r with status := Status.confirmed, confirmedAt := some now } else r

/-- Model of markConfirmedById: the conditional UPDATE, returning the updated
table and the number of affected rows.  The source reports success exactly
when that number is 1. -/
def markConfirmedById (db : List TokenRow) (i : Nat) (now : Int) :
    List TokenRow × Nat :=
  (db.map (confirmApply i now), (db.filter (confirmMatch i now)).length)

/-- WHERE clause of the lazy expiry sweep inside upsertPendingByEmailTx. -/
def sweepMatch (email : String) (now : Int) (r : TokenRow) : Bool :=
  r.email == email && r.status == Status.pending && decide (r.expiresAt ≤ now)

/-- The UPDATE setting stale pending rows of this email to expired. -/
def expireStalePending (db : List TokenRow) (email : String) (now : Int) :
    List TokenRow :=
  db.map (fun r => if sweepMatch email now r then
    { r with status := Status.expired } else r)

/-- Model of selectPendingForUpdate: latest pending row of the email,
locked FOR UPDATE (no expiry filter in this query). -/
def selectPendingForUpdate (db : List TokenRow) (email : String) :
    Option TokenRow :=
  latestBy (db.filter (fun r => r.email == email && r.status == Status.pending))

/-- The defensive UPDATE expiring one pending row by id. -/
def expirePendingById (db : List TokenRow) (i : Nat) : List TokenRow :=
  db.map (fun r => if r.id == i && r.status == Status.pending then
    { r with status := Status.expired } else r)

/-- Tagged outcome of upsertPendingByEmailTx. -/
inductive UpsertAction where
  | created
  | resent
  | cooldown
  | rateLimited
deriving DecidableEq, Repr

/-- Result of upsertPendingByEmailTx: the action tag, the plaintext secret
when one was issued, and the table after the transaction. -/
structure UpsertResult where
  action : UpsertAction
  tokenPlain : Option String
  db : List TokenRow
deriving DecidableEq, Repr

/-- Arguments of upsertPendingByEmailTx after the assert/normalize helpers:
ttlMinutes in 1..60, cooldownSeconds nonnegative, maxSendCount in 1..20. -/
structure UpsertArgs where
  email : String
  days : Int
  ttlMinutes : Nat
  cooldownSeconds : Nat
  maxSendCount : Nat
deriving DecidableEq, Repr

/-- The UPDATE of the resend branch: rotate the secret, bump send_count,
refresh last_sent_at and expires_at. -/
def rotateRow (now : Int) (ttlMinutes : Nat) (days : Int) (token : String)
    (r : TokenRow) : TokenRow :=
  { r with
    tokenHash := digestOf token
    days := days
    expiresAt := now + (ttlMinutes : Int) * 60000
    sendCount := r.sendCount + 1
    lastSentAt := now }

/-- The INSERT of the create branch: a fresh pending row with send_count 1. -/
def newPendingRow (a : UpsertArgs) (now : Int) (newId : Nat) (token : String) :
    TokenRow :=
  { id := newId
    email := a.email
    tokenHash := digestOf token
    status := Status.pending
    days := a.days
    createdAt := now
    expiresAt := now + (a.ttlMinutes : Int) * 60000
    confirmedAt := none
    sendCount := 1
    lastSentAt := now }

/-- The INSERT phase of upsertPendingByEmailTx, reached both when no pending
row existed and when the defensive re-check just expired one.  concurrentInsert
is a pending row committed by a racing transaction between our locking select
and our insert: it makes the INSERT raise ER_DUP_ENTRY, upon which the source
re-selects the existing row under lock and answers cooldown with its meta;
without a race the INSERT simply succeeds. -/
def upsertInsertPhase (db2 : List TokenRow) (a : UpsertArgs) (now : Int)
    (newId : Nat) (token : String) (concurrentInsert : Option TokenRow) :
    UpsertResult :=
  match concurrentInsert with
  | some c =>
    match selectPendingForUpdate (db2 ++ [c]) a.email with
    | some _ => ⟨UpsertAction.cooldown, none, db2 ++ [c]⟩
    | none =>
      ⟨UpsertAction.created, some token,
        (db2 ++ [c]) ++ [newPendingRow a now newId token]⟩
  | none =>
    ⟨UpsertAction.created, some token, db2 ++ [newPendingRow a now newId token]⟩

/-- Model of upsertPendingByEmailTx.  Explicit arguments replace the sources
of nondeterminism: now is the clock, newId the surrogate key of a fresh
insert, and token the freshly generated plaintext secret. -/
def upsertPendingByEmailTx (db : List TokenRow) (a : UpsertArgs) (now : Int)
    (newId : Nat) (token : String) (concurrentInsert : Option TokenRow) :
    UpsertResult :=
  let db1 := expireStalePending db a.email now
  match selectPendingForUpdate db1 a.email with
  | some p =>
    if p.expiresAt ≤ now then
      upsertInsertPhase (expirePendingById db1 p.id) a now newId token
        concurrentInsert
    else
      let inCooldown : Bool :=
        if 0 < a.cooldownSeconds then
          decide (now < p.lastSentAt + (a.cooldownSeconds : Int) * 1000)
        else false
      if inCooldown then ⟨UpsertAction.cooldown, none, db1⟩
      else if a.maxSendCount ≤ p.sendCount then
        ⟨UpsertAction.rateLimited, none, db1⟩
      else
        ⟨UpsertAction.resent, some token,
          db1.map (fun r => if r.id == p.id then
            rotateRow now a.ttlMinutes a.days token r else r)⟩
  | none => upsertInsertPhase db1 a now newId token concurrentInsert

/-- Send count of the row with the given id, for stating trace properties. -/
def sendCountAt (db : List TokenRow) (i : Nat) : Option Nat :=
  (db.find? (fun r => r.id == i)).map (fun r => r.sendCount)


/-! ## src/app/src/controllers/api/credentials-confirm-controller.js -/

/-- One row of the api_tokens table as created by
apiTokensRepository.createToken: the guarded credential resource. -/
structure ApiTokenRow where
  ownerEmail : String
  tokenHash : String
  days : Int
deriving DecidableEq, Repr

/-- State touched by the credentials confirm endpoint. -/
structure CredState where
  reqs : List TokenRow
  apiTokens : List ApiTokenRow
deriving DecidableEq, Repr

/-- Responses of the credentials confirm endpoint. -/
inductive CredResp where
  | invalidParamsToken
  | invalidToken
  | invalidOrExpired
  | ok (email : String) (apiToken : String) (days : Int)
  | internalError
deriving DecidableEq, Repr

/-- Lifetime clamp of the confirm controller: pending.days when in 1..90,
otherwise 1. -/
def clampDays (d : Int) : Int :=
  if 0 < d ∧ d ≤ 90 then d else 1

/-- Model of confirmCredentials.  rawToken is the token query value (none for
a missing or non-string parameter), apiTokenPlain the fresh random API token
the controller would mint, and mintFails injects a failure of
apiTokensRepository.createToken, which the source catches in its outer
try/catch and reports as internal_error after markConfirmedById has already
been applied. -/
def confirmCredentials (st : CredState) (now : Int) (rawToken : Option String)
    (apiTokenPlain : String) (mintFails : Bool) : CredResp × CredState :=
  let token := normalizeConfirmationCode rawToken
  if token = "" then (CredResp.invalidParamsToken, st)
  else if isConfirmationCodeValid token = false then (CredResp.invalidToken, st)
  else
    match getPendingByTokenHash st.reqs (digestOf token) now with
    | none => (CredResp.invalidOrExpired, st)
    | some pending =>
      let upd := markConfirmedById st.reqs pending.id now
      let st1 : CredState := { st with reqs := upd.1 }
      if upd.2 == 1 then
        if mintFails then (CredResp.internalError, st1)
        else
          let days := clampDays pending.days
          let owner := jsLowerTrim pending.email
          (CredResp.ok owner apiTokenPlain days,
           { st1 with
              apiTokens := st1.apiTokens ++ [⟨owner, digestOf apiTokenPlain, days⟩] })
      else (CredResp.invalidOrExpired, st1)

/-! ## email_confirmations rows
(src/app/src/repositories/email-confirmations-repository.js) -/

/-- One email_confirmations row. -/
structure ConfRow where
  id : Nat
  email : String
  tokenHash : String
  status : Status
  createdAt : Int
  expiresAt : Int
  confirmedAt : Option Int
  sendCount : Nat
  lastSentAt : Int
  attemptsConfirm : Nat
  intent : String
  aliasName : String
  aliasDomain : String
deriving DecidableEq, Repr

/-- ORDER BY id DESC LIMIT 1 over email_confirmations rows. -/
def confLatestBy (rs : List ConfRow) : Option ConfRow :=
  maxById ConfRow.id rs

/-- WHERE clause of the email_confirmations getPendingByTokenHash. -/
def confRowLive (hash : String) (now : Int) (r : ConfRow) : Bool :=
  r.tokenHash == hash && r.status == Status.pending && decide (now < r.expiresAt)

/-- Model of emailConfirmationsRepository.getPendingByTokenHash. -/
def getPendingByTokenHashConf (db : List ConfRow) (hash : String) (now : Int) :
    Option ConfRow :=
  confLatestBy (db.filter (confRowLive hash now))

/-- WHERE clause of the email_confirmations markConfirmedById. -/
def confConfirmMatch (i : Nat) (now : Int) (r : ConfRow) : Bool :=
  r.id == i && r.status == Status.pending && decide (now < r.expiresAt)

/-- Effect of the email_confirmations confirm UPDATE on one row. -/
def confConfirmApply (i : Nat) (now : Int) (r : ConfRow) : ConfRow :=
  if confConfirmMatch i now r then
    { r with status := Status.confirmed, confirmedAt := some now } else r

/-- Model of emailConfirmationsRepository.markConfirmedById. -/
def markConfirmedByIdConf (db : List ConfRow) (i : Nat) (now : Int) :
    List ConfRow × Nat :=
  (db.map (confConfirmApply i now), (db.filter (confConfirmMatch i now)).length)

/-- Send count of the email_confirmations row with the given id. -/
def sendCountAtConf (db : List ConfRow) (i : Nat) : Option Nat :=
  (db.find? (fun r => r.id == i)).map (fun r => r.sendCount)

/-- Model of emailConfirmationsRepository.getActivePendingByEmail. -/
def getActivePendingByEmailConf (db : List ConfRow) (email : String)
    (now : Int) : Option ConfRow :=
  confLatestBy (db.filter (fun r =>
    r.email == email && r.status == Status.pending && decide (now < r.expiresAt)))

/-- Model of emailConfirmationsRepository.rotateTokenForPending: the UPDATE
targets the latest pending unexpired row of the email (ORDER BY id DESC
LIMIT 1), rotating the digest, refreshing expiry and last_sent_at and
incrementing send_count; the second component is the affected row count. -/
def rotateTokenForPendingConf (db : List ConfRow) (email : String)
    (tokenHash32 : String) (ttlMinutes : Nat) (now : Int) :
    List ConfRow × Nat :=
  match confLatestBy (db.filter (fun r =>
      r.email == email && r.status == Status.pending && decide (now < r.expiresAt))) with
  | none => (db, 0)
  | some t =>
    (db.map (fun r => if r.id == t.id then
      { r with
          tokenHash := tokenHash32
          expiresAt := now + (ttlMinutes : Int) * 60000
          sendCount := r.sendCount + 1
          lastSentAt := now } else r), 1)

/-- Model of emailConfirmationsRepository.createPending: lazily expire stale
pending rows of the email, then insert a fresh pending row with send_count 1.
The assertIntent / assertAliasName / assertDomain helpers lower-case and trim
their arguments (their validation failures are preconditions outside this
model). -/
def createPendingConf (db : List ConfRow) (now : Int) (newId : Nat)
    (email tokenHash32 : String) (ttlMinutes : Nat)
    (intent aliasName aliasDomain : String) : List ConfRow :=
  let db1 := db.map (fun r =>
    if r.email == email && r.status == Status.pending && decide (r.expiresAt ≤ now)
    then { r with status := Status.expired } else r)
  db1 ++ [{ id := newId
            email := email
            tokenHash := tokenHash32
            status := Status.pending
            createdAt := now
            expiresAt := now + (ttlMinutes : Int) * 60000
            confirmedAt := none
            sendCount := 1
            lastSentAt := now
            attemptsConfirm := 0
            intent := jsLowerTrim intent
            aliasName := jsLowerTrim aliasName
            aliasDomain := jsLowerTrim aliasDomain }]

/-! ## src/app/src/services/api-credentials-email-service.js
(sendEmailConfirmation, alias subscribe/unsubscribe flow) -/

/-- Outcome tags of the alias-flow sendEmailConfirmation. -/
inductive AliasSendOutcome where
  | cooldownHit
  | rotated
  | created
deriving DecidableEq, Repr

/-- Model of the alias-flow sendEmailConfirmation send/persist decision:
read the active pending row of the normalized address; inside the cooldown
window return without mutating; otherwise rotate the existing pending row
or create a fresh one.  token is the freshly generated secret and newId the
surrogate key of a fresh insert.  Message rendering and SMTP delivery have
no effect on the store and are omitted. -/
def sendEmailConfirmation (db : List ConfRow) (now : Int)
    (cooldownSeconds : Nat) (ttlMinutes : Nat)
    (email intent aliasName aliasDomain token : String) (newId : Nat) :
    AliasSendOutcome × List ConfRow :=
  let toAddr := jsLowerTrim email
  match getActivePendingByEmailConf db toAddr now with
  | some pending =>
    if now - pending.lastSentAt < (cooldownSeconds : Int) * 1000 then
      (AliasSendOutcome.cooldownHit, db)
    else
      (AliasSendOutcome.rotated,
        (rotateTokenForPendingConf db toAddr (digestOf token) ttlMinutes now).1)
  | none =>
    let intentN := if intent = "" then "subscribe" else intent
    (AliasSendOutcome.created,
      createPendingConf db now newId toAddr (digestOf token) ttlMinutes
        intentN aliasName aliasDomain)

/-! ## src/app/src/repositories/alias-repository.js -/

/-- One alias row (mail-forwarding alias; goto is the owner mailbox). -/
structure AliasRow where
  id : Nat
  address : String
  goto : String
  active : Bool
deriving DecidableEq, Repr

/-- Model of aliasRepository.getByAddress. -/
def getByAddress (db : List AliasRow) (address : String) : Option AliasRow :=
  db.find? (fun r => r.address == address)

/-- Model of aliasRepository.deleteByAddress (DELETE ... LIMIT 1): the table
without the first matching row, paired with the deleted flag
(affectedRows = 1). -/
def deleteByAddress (db : List AliasRow) (address : String) :
    List AliasRow × Bool :=
  (db.eraseP (fun r => r.address == address),
   db.any (fun r => r.address == address))

/-- Model of aliasRepository.createIfNotExists: a locking select on the
address; when present, alreadyExists; otherwise insert.  Result components:
table, created flag, alreadyExists flag. -/
def createIfNotExists (db : List AliasRow) (newId : Nat)
    (address gotoDest : String) (active : Bool) :
    List AliasRow × Bool × Bool :=
  match db.find? (fun r => r.address == address) with
  | some _ => (db, false, true)
  | none => (db ++ [{ id := newId, address := address, goto := gotoDest, active := active }], true, false)

/-! ## src/app/src/controllers/forward/confirm-controller.js -/

/-- Responses of the forward confirm endpoint. -/
inductive ForwardResp where
  | invalidToken
  | invalidOrExpired
  | payloadMissing
  | aliasNotFound (address : String)
  | ownerChanged (address : String)
  | okRemoved (removed : Bool) (address : String)
  | unsupportedIntent (intent : String)
  | invalidDomain (domain : String)
  | okAlreadyExists (address : String) (gotoDest : String)
  | okCreated (created : Bool) (address : String) (gotoDest : String)
  | internalError
deriving DecidableEq, Repr

/-- State touched by the forward confirm endpoint: confirmation rows, alias
rows, and the set of active domain names (domainRepository.getActiveByName
succeeds exactly on members; its id is only used for a payload field the
alias INSERT ignores). -/
structure ForwardState where
  confs : List ConfRow
  aliases : List AliasRow
  activeDomains : List String
deriving DecidableEq, Repr

/-- Model of confirmAction.  newAliasId is the surrogate key of a fresh alias
insert; mutatorThrows injects a thrown failure of the guarded mutation
(aliasRepository.deleteByAddress / createIfNotExists), which the source
catches in its outer try/catch and reports as internal_error after
markConfirmedById has already been applied. -/
def confirmAction (st : ForwardState) (now : Int) (rawToken : Option String)
    (newAliasId : Nat) (mutatorThrows : Bool) : ForwardResp × ForwardState :=
  let token := normalizeConfirmationCode rawToken
  if isConfirmationCodeValid token = false then (ForwardResp.invalidToken, st)
  else
    match getPendingByTokenHashConf st.confs (digestOf token) now with
    | none => (ForwardResp.invalidOrExpired, st)
    | some pending =>
      let toEmail := jsLowerTrim pending.email
      let intent := jsLowerTrim (if pending.intent = "" then "subscribe" else pending.intent)
      let aliasName := jsLowerTrim pending.aliasName
      let aliasDomain := jsLowerTrim pending.aliasDomain
      if toEmail = "" ∨ aliasName = "" ∨ aliasDomain = "" then
        (ForwardResp.payloadMissing, st)
      else
        let upd := markConfirmedByIdConf st.confs pending.id now
        let st1 : ForwardState := { st with confs := upd.1 }
        if upd.2 == 1 then
          let address := aliasName ++ "@" ++ aliasDomain
          if intent = "unsubscribe" then
            match getByAddress st1.aliases address with
            | none => (ForwardResp.aliasNotFound address, st1)
            | some row =>
              if row.id == 0 then (ForwardResp.aliasNotFound address, st1)
              else
                let currentGoto := jsLowerTrim row.goto
                if currentGoto ≠ "" ∧ currentGoto ≠ toEmail then
                  (ForwardResp.ownerChanged address, st1)
                else if mutatorThrows then (ForwardResp.internalError, st1)
                else
                  let del := deleteByAddress st1.aliases address
                  (ForwardResp.okRemoved del.2 address, { st1 with aliases := del.1 })
          else if intent ≠ "subscribe" ∧ intent ≠ "subscribe_address" then
            (ForwardResp.unsupportedIntent intent, st1)
          else if intent ≠ "subscribe_address" ∧
              st1.activeDomains.contains aliasDomain = false then
            (ForwardResp.invalidDomain aliasDomain, st1)
          else
            let existingHit : Bool :=
              match getByAddress st1.aliases address with
              | some row2 => row2.id != 0
              | none => false
            if existingHit then (ForwardResp.okAlreadyExists address toEmail, st1)
            else if mutatorThrows then (ForwardResp.internalError, st1)
            else
              let ins := createIfNotExists st1.aliases newAliasId address toEmail true
              (ForwardResp.okCreated ins.2.1 address toEmail,
                { st1 with aliases := ins.1 })
        else (ForwardResp.invalidOrExpired, st1)
/-! ## Helper lemmas about the code shape -/

theorem natDigitChar_isDigit (d : Nat) : (natDigitChar d).isDigit = true := by
  by_cases h : d < 10
  · interval_cases d <;> decide
  · unfold natDigitChar
    rw [List.getD_eq_default]
    · decide
    · unfold digitChars
      simp only [List.length]
      omega

theorem jsNatToString_all_digits (n : Nat) :
    (jsNatToString n).data.all Char.isDigit = true := by
  unfold jsNatToString
  split
  · decide
  · simp only [List.all_eq_true]
    intro c hc
    obtain ⟨d, _, rfl⟩ := List.mem_map.mp hc
    exact natDigitChar_isDigit d

theorem jsNatToString_length_le (n : Nat) (h : n < 1000000) :
    (jsNatToString n).data.length ≤ 6 := by
  unfold jsNatToString
  split
  · decide
  · rename_i hn
    simp only [String.data, List.length_map, List.length_reverse]
    by_contra hlen
    push_neg at hlen
    have hle : (10 : Nat) ^ (Nat.digits 10 n).length ≤ 10 * n :=
      Nat.base_pow_length_digits_le 10 n (by norm_num) hn
    have h7 : (10 : Nat) ^ 7 ≤ 10 ^ (Nat.digits 10 n).length :=
      Nat.pow_le_pow_right (by norm_num) hlen
    have : (10 : Nat) ^ 7 ≤ 10 * n := le_trans h7 hle
    omega

theorem generateConfirmationCode_shape (rnd : Nat) (h : rnd < 1000000) :
    (generateConfirmationCode rnd).data.length = 6 ∧
      (generateConfirmationCode rnd).data.all Char.isDigit = true := by
  unfold generateConfirmationCode jsPadStart CONFIRMATION_CODE_LENGTH
  have hlen := jsNatToString_length_le rnd h
  have hdig := jsNatToString_all_digits rnd
  constructor
  · simp only [String.data, List.length_append, List.length_replicate]
    omega
  · simp only [String.data, List.all_append, Bool.and_eq_true]
    constructor
    · simp only [List.all_eq_true]
      intro c hc
      have := List.eq_of_mem_replicate hc
      subst this
      decide
    · exact hdig

/-! ## Claim C10 -/

/-- C10: every invocation of generateConfirmationCode returns a string of
exactly 6 ASCII digits, and isConfirmationCodeValid accepts a string exactly
when it consists of exactly 6 decimal digits; hence every generated code
passes the shape check applied by the confirm endpoints. -/
theorem C10_code_shape_roundtrip :
    (∀ rnd : Nat, rnd < 1000000 →
      (generateConfirmationCode rnd).data.length = 6 ∧
      (generateConfirmationCode rnd).data.all Char.isDigit = true ∧
      isConfirmationCodeValid (generateConfirmationCode rnd) = true) ∧
    (∀ s : String,
      isConfirmationCodeValid s = true ↔
        (s.data.length = 6 ∧ s.data.all Char.isDigit = true)) := by
  constructor
  · intro rnd h
    obtain ⟨h1, h2⟩ := generateConfirmationCode_shape rnd h
    refine ⟨h1, h2, ?_⟩
    unfold isConfirmationCodeValid
    rw [h1, h2]
    decide
  · intro s
    unfold isConfirmationCodeValid
    constructor
    · intro h
      rw [Bool.and_eq_true] at h
      exact ⟨by have := h.1; simpa using this, h.2⟩
    · intro ⟨h1, h2⟩
      rw [Bool.and_eq_true]
      exact ⟨by simpa using h1, h2⟩

/-- C10 witness: concrete evaluation at the random draw 7. -/
theorem C10_code_shape_roundtrip_witness :
    (generateConfirmationCode 7).data.length = 6 ∧
      (generateConfirmationCode 7).data.all Char.isDigit = true ∧
      isConfirmationCodeValid (generateConfirmationCode 7) = true :=
  C10_code_shape_roundtrip.1 7 (by decide)
theorem withTxRetryGo_all_busy {α : Type} (fn : Nat → Except JsError α)
    (maxRetries : Nat) (e : Nat → JsError)
    (hf : ∀ k, k ≤ maxRetries → fn k = .error (e k))
    (hr : ∀ k, k ≤ maxRetries → isRetryableTxError (e k) = true) :
    ∀ fuel attempt, attempt + fuel = maxRetries + 1 → attempt ≤ maxRetries →
      withTxRetryGo fn maxRetries attempt fuel =
        (.busy (e maxRetries), maxRetries + 1) := by
  intro fuel
  induction fuel with
  | zero => intro attempt h hle; omega
  | succ n ih =>
    intro attempt h hat
    unfold withTxRetryGo
    rw [hf attempt hat]
    simp only
    by_cases hlast : maxRetries ≤ attempt
    · have : attempt = maxRetries := by omega
      subst this
      rw [if_pos (Or.inr le_rfl), if_pos (hr attempt hat)]
    · rw [if_neg]
      · exact ih (attempt + 1) (by omega) (by omega)
      · simp only [hr attempt hat, not_or]
        constructor
        · exact fun hfa => by simp at hfa
        · omega

/-! ## Claim C7 -/

/-- C7: a unit of work that always fails with a transient lock/deadlock
signal is attempted exactly maxRetries + 1 times and then surfaces the
distinct tx_busy condition (wrapping the last transient cause), while a unit
of work whose first attempt fails with a non-transient error propagates that
error unchanged after exactly one attempt. -/
theorem C7_retry_bound {α : Type} (fn : Nat → Except JsError α)
    (maxRetries : Nat) :
    (∀ e : Nat → JsError,
      (∀ k, k ≤ maxRetries → fn k = .error (e k)) →
      (∀ k, k ≤ maxRetries → isRetryableTxError (e k) = true) →
      withTxRetry fn maxRetries = (.busy (e maxRetries), maxRetries + 1)) ∧
    (∀ e0 : JsError, fn 0 = .error e0 → isRetryableTxError e0 = false →
      withTxRetry fn maxRetries = (.err e0, 1)) := by
  constructor
  · intro e hf hr
    exact withTxRetryGo_all_busy fn maxRetries e hf hr (maxRetries + 1) 0
      (by omega) (by omega)
  · intro e0 hf hnr
    unfold withTxRetry withTxRetryGo
    rw [hf]
    simp only
    rw [if_pos (Or.inl hnr), if_neg]
    simp [hnr]

/-- C7 witness: with maxRetries = 2, a unit of work always failing with
ER_LOCK_DEADLOCK is attempted 3 times and surfaces tx_busy; a unit of work
failing with a non-transient error is attempted once and the error is
propagated unchanged. -/
theorem C7_retry_bound_witness :
    withTxRetry (fun _ => (Except.error ⟨"ER_LOCK_DEADLOCK", 1213⟩ :
        Except JsError Nat)) 2 =
      (.busy ⟨"ER_LOCK_DEADLOCK", 1213⟩, 3) ∧
    withTxRetry (fun _ => (Except.error ⟨"ER_DUP_ENTRY", 1062⟩ :
        Except JsError Nat)) 2 =
      (.err ⟨"ER_DUP_ENTRY", 1062⟩, 1) := by
  constructor
  · exact (C7_retry_bound
      (fun _ => (Except.error ⟨"ER_LOCK_DEADLOCK", 1213⟩ : Except JsError Nat))
      2).1 (fun _ => ⟨"ER_LOCK_DEADLOCK", 1213⟩)
      (fun _ _ => rfl)
      (by
        intro k hk
        show isRetryableTxError ⟨"ER_LOCK_DEADLOCK", 1213⟩ = true
        decide)
  · exact (C7_retry_bound
      (fun _ => (Except.error ⟨"ER_DUP_ENTRY", 1062⟩ : Except JsError Nat))
      2).2 ⟨"ER_DUP_ENTRY", 1062⟩ rfl (by decide)
/-! ## Claim C4 -/

/-- C4: the cooldown arithmetic of token issuance with cooldown = 60 s and
maxSends = 3 (ttl 15 min): the first call creates the row with sendCount 1; a
call 10 s later hits the cooldown branch without mutating; calls at +61 s and
+130 s are resent with sendCount 2 and 3; a call at +200 s is rate_limited
without mutating.  The final conjunct evidences that the cooldown branch is
tested before the max-sends branch: at +150 s, with sendCount already at the
maximum but inside the cooldown window, the result is cooldown, not
rate_limited. -/
theorem C4_cooldown_arithmetic :
    let a : UpsertArgs := ⟨"user@example.com", 30, 15, 60, 3⟩
    let r1 := upsertPendingByEmailTx [] a 0 1 "TOKAAAAAAAAAAAAAAAA1" none
    let r2 := upsertPendingByEmailTx r1.db a 10000 2 "TOKAAAAAAAAAAAAAAAA2" none
    let r3 := upsertPendingByEmailTx r2.db a 61000 3 "TOKAAAAAAAAAAAAAAAA3" none
    let r4 := upsertPendingByEmailTx r3.db a 130000 4 "TOKAAAAAAAAAAAAAAAA4" none
    let r5 := upsertPendingByEmailTx r4.db a 200000 5 "TOKAAAAAAAAAAAAAAAA5" none
    let r6 := upsertPendingByEmailTx r5.db a 150000 6 "TOKAAAAAAAAAAAAAAAA6" none
    r1.action = UpsertAction.created ∧ sendCountAt r1.db 1 = some 1 ∧
    r2.action = UpsertAction.cooldown ∧ r2.db = r1.db ∧
    r3.action = UpsertAction.resent ∧ sendCountAt r3.db 1 = some 2 ∧
    r4.action = UpsertAction.resent ∧ sendCountAt r4.db 1 = some 3 ∧
    r5.action = UpsertAction.rateLimited ∧ r5.db = r4.db ∧
    sendCountAt r5.db 1 = some 3 ∧
    r6.action = UpsertAction.cooldown := by
  decide

/-! ## Claim C8 -/

theorem map_id_of_forall {α : Type} (l : List α) (f : α → α)
    (h : ∀ x ∈ l, f x = x) : l.map f = l := by
  induction l with
  | nil => rfl
  | cons hd tl ih =>
    simp only [List.map_cons]
    rw [h hd (List.mem_cons_self hd tl),
      ih (fun x hx => h x (List.mem_cons_of_mem hd hx))]

theorem maxById_mem_aux {α : Type} (idOf : α → Nat) (rs : List α) :
    ∀ acc r, rs.foldl (fun acc r =>
        match acc with
        | none => some r
        | some a => if idOf a < idOf r then some r else some a) acc = some r →
      r ∈ rs ∨ acc = some r := by
  induction rs with
  | nil => intro acc r h; exact Or.inr h
  | cons hd tl ih =>
    intro acc r h
    rcases ih _ r h with hmem | hacc
    · exact Or.inl (List.mem_cons_of_mem hd hmem)
    · match acc with
      | none =>
        simp only at hacc
        injection hacc with h2
        exact Or.inl (h2 ▸ List.mem_cons_self hd tl)
      | some a =>
        simp only at hacc
        split at hacc
        · injection hacc with h2
          exact Or.inl (h2 ▸ List.mem_cons_self hd tl)
        · exact Or.inr hacc

theorem maxById_mem {α : Type} (idOf : α → Nat) (rs : List α) (r : α)
    (h : maxById idOf rs = some r) : r ∈ rs := by
  rcases maxById_mem_aux idOf rs none r h with hmem | hacc
  · exact hmem
  · cases hacc

theorem latestBy_mem (rs : List TokenRow) (r : TokenRow)
    (h : latestBy rs = some r) : r ∈ rs :=
  maxById_mem TokenRow.id rs r h

theorem confLatestBy_mem (rs : List ConfRow) (r : ConfRow)
    (h : confLatestBy rs = some r) : r ∈ rs :=
  maxById_mem ConfRow.id rs r h

/-- C8: a row whose expiresAt is not in the future can never be redeemed while
its stored status is still pending: the digest lookup only ever returns rows
with status pending and expiresAt strictly later than now, and when every row
carrying the requested id is expired-by-time the conditional confirm UPDATE
affects zero rows and leaves the table unchanged, so the pending-to-confirmed
transition is unreachable for every expired row. -/
theorem C8_expired_unredeemable (db : List TokenRow) (now : Int) :
    (∀ hash r, getPendingByTokenHash db hash now = some r →
      r.status = Status.pending ∧ now < r.expiresAt) ∧
    (∀ i, (∀ r, r ∈ db → r.id = i → r.expiresAt ≤ now) →
      markConfirmedById db i now = (db, 0)) := by
  constructor
  · intro hash r h
    have hmem := latestBy_mem _ r h
    have hp := List.of_mem_filter hmem
    unfold tokenRowLive at hp
    simp only [Bool.and_eq_true, beq_iff_eq, decide_eq_true_eq] at hp
    exact ⟨hp.1.2, hp.2⟩
  · intro i hall
    have hnone : ∀ r, r ∈ db → confirmMatch i now r = false := by
      intro r hr
      unfold confirmMatch
      by_cases hid : r.id = i
      · have := hall r hr hid
        simp only [Bool.and_eq_false_iff]
        right
        simpa using this
      · simp only [Bool.and_eq_false_iff]
        left
        left
        simpa using hid
    have hmap : db.map (confirmApply i now) = db := by
      apply map_id_of_forall
      intro r hr
      unfold confirmApply
      rw [hnone r hr]
      simp
    have hfil : db.filter (confirmMatch i now) = [] := by
      apply List.filter_eq_nil_iff.mpr
      intro r hr
      rw [hnone r hr]
      simp
    unfold markConfirmedById
    rw [hmap, hfil]
    rfl

/-! ## Claim C1: helper lemmas on the conditional confirm UPDATE -/

theorem tokenRowLive_of_lookup (db : List TokenRow) (hash : String) (now : Int)
    (r : TokenRow) (h : getPendingByTokenHash db hash now = some r) :
    r ∈ db ∧ r.tokenHash = hash ∧ r.status = Status.pending ∧ now < r.expiresAt := by
  have hmem := latestBy_mem _ r h
  have hp := List.of_mem_filter hmem
  unfold tokenRowLive at hp
  simp only [Bool.and_eq_true, beq_iff_eq, decide_eq_true_eq] at hp
  exact ⟨List.mem_of_mem_filter hmem, hp.1.1, hp.1.2, hp.2⟩

theorem confirmApply_id (i : Nat) (now : Int) (r : TokenRow) :
    (confirmApply i now r).id = r.id := by
  unfold confirmApply
  split <;> rfl

theorem confirmApply_tokenHash (i : Nat) (now : Int) (r : TokenRow) :
    (confirmApply i now r).tokenHash = r.tokenHash := by
  unfold confirmApply
  split <;> rfl

theorem confirmApply_sendCount (i : Nat) (now : Int) (r : TokenRow) :
    (confirmApply i now r).sendCount = r.sendCount := by
  unfold confirmApply
  split <;> rfl

theorem confirmMatch_true_of (i : Nat) (now : Int) (r : TokenRow)
    (hid : r.id = i) (hp : r.status = Status.pending) (hexp : now < r.expiresAt) :
    confirmMatch i now r = true := by
  unfold confirmMatch
  simp [hid, hp, hexp]

theorem filter_confirmMatch_of_unique (db : List TokenRow) (i : Nat) (now : Int)
    (r : TokenRow) (huniq : db.filter (fun x => x.id == i) = [r])
    (hp : r.status = Status.pending) (hexp : now < r.expiresAt) :
    db.filter (confirmMatch i now) = [r] := by
  have hrid : (r.id == i) = true := by
    have hm : r ∈ db.filter (fun x => x.id == i) := by
      rw [huniq]
      exact List.mem_singleton_self r
    exact (List.mem_filter.mp hm).2
  have hcong : ∀ x ∈ db, confirmMatch i now x = (x.id == i) := by
    intro x hx
    by_cases hid : (x.id == i) = true
    · have hxr : x = r := by
        have hm : x ∈ db.filter (fun y => y.id == i) :=
          List.mem_filter.mpr ⟨hx, hid⟩
        rw [huniq] at hm
        exact List.mem_singleton.mp hm
      subst hxr
      rw [hid, confirmMatch_true_of i now x (by simpa using hrid) hp hexp]
    · rw [Bool.not_eq_true] at hid
      unfold confirmMatch
      rw [hid]
      simp
  rw [List.filter_congr hcong, huniq]

theorem unique_id_mem (db : List TokenRow) (i : Nat) (r : TokenRow)
    (huniq : db.filter (fun x => x.id == i) = [r]) :
    ∀ x ∈ db, x.id = i → x = r := by
  intro x hx hid
  have hm : x ∈ db.filter (fun y => y.id == i) :=
    List.mem_filter.mpr ⟨hx, by simpa using hid⟩
  rw [huniq] at hm
  exact List.mem_singleton.mp hm

theorem rid_of_unique (db : List TokenRow) (i : Nat) (r : TokenRow)
    (huniq : db.filter (fun x => x.id == i) = [r]) : r.id = i := by
  have hm : r ∈ db.filter (fun x => x.id == i) := by
    rw [huniq]
    exact List.mem_singleton_self r
  simpa using (List.mem_filter.mp hm).2

theorem filter_confirmMatch_map_nil (db : List TokenRow) (i : Nat) (now : Int)
    (r : TokenRow) (huniq : db.filter (fun x => x.id == i) = [r])
    (hp : r.status = Status.pending) (hexp : now < r.expiresAt) :
    ∀ now2, (db.map (confirmApply i now)).filter (confirmMatch i now2) = [] := by
  intro now2
  apply List.filter_eq_nil_iff.mpr
  intro x hx hmatch
  obtain ⟨y, hy, rfl⟩ := List.mem_map.mp hx
  unfold confirmMatch at hmatch
  simp only [Bool.and_eq_true, beq_iff_eq, decide_eq_true_eq] at hmatch
  have hyid : y.id = i := by
    rw [← confirmApply_id i now y]
    exact hmatch.1.1
  have hyr : y = r := unique_id_mem db i r huniq y hy hyid
  subst hyr
  have hcm : confirmMatch i now y = true :=
    confirmMatch_true_of i now y hyid hp hexp
  unfold confirmApply at hmatch
  rw [hcm] at hmatch
  simp at hmatch

theorem lookup_after_confirm_none (db : List TokenRow) (i : Nat) (now : Int)
    (r : TokenRow) (hash : String)
    (huniq : db.filter (fun x => x.id == i) = [r])
    (hp : r.status = Status.pending) (hexp : now < r.expiresAt)
    (hhash : ∀ x ∈ db, x.tokenHash = hash → x = r) :
    ∀ now2, getPendingByTokenHash (db.map (confirmApply i now)) hash now2 = none := by
  intro now2
  unfold getPendingByTokenHash
  have hnil : (db.map (confirmApply i now)).filter (tokenRowLive hash now2) = [] := by
    apply List.filter_eq_nil_iff.mpr
    intro x hx hlive
    obtain ⟨y, hy, rfl⟩ := List.mem_map.mp hx
    unfold tokenRowLive at hlive
    simp only [Bool.and_eq_true, beq_iff_eq, decide_eq_true_eq] at hlive
    have hyh : y.tokenHash = hash := by
      rw [← confirmApply_tokenHash i now y]
      exact hlive.1.1
    have hyr : y = r := hhash y hy hyh
    subst hyr
    have hcm : confirmMatch i now y = true :=
      confirmMatch_true_of i now y (rid_of_unique db i y huniq) hp hexp
    unfold confirmApply at hlive
    rw [hcm] at hlive
    simp at hlive
  rw [hnil]
  rfl

theorem valid_code_ne_empty (tok : String)
    (h : isConfirmationCodeValid tok = true) : ¬(tok = "") := by
  intro heq
  subst heq
  simp [isConfirmationCodeValid] at h

theorem confRowLive_of_lookup (db : List ConfRow) (hash : String) (now : Int)
    (r : ConfRow) (h : getPendingByTokenHashConf db hash now = some r) :
    r ∈ db ∧ r.tokenHash = hash ∧ r.status = Status.pending ∧
      now < r.expiresAt := by
  have hmem := confLatestBy_mem _ r h
  have hp := List.of_mem_filter hmem
  unfold confRowLive at hp
  simp only [Bool.and_eq_true, beq_iff_eq, decide_eq_true_eq] at hp
  exact ⟨List.mem_of_mem_filter hmem, hp.1.1, hp.1.2, hp.2⟩

theorem confConfirmMatch_true_of (i : Nat) (now : Int) (r : ConfRow)
    (hid : r.id = i) (hp : r.status = Status.pending)
    (hexp : now < r.expiresAt) : confConfirmMatch i now r = true := by
  unfold confConfirmMatch
  simp [hid, hp, hexp]

theorem filter_confConfirmMatch_of_unique (db : List ConfRow) (i : Nat)
    (now : Int) (r : ConfRow) (huniq : db.filter (fun x => x.id == i) = [r])
    (hp : r.status = Status.pending) (hexp : now < r.expiresAt) :
    db.filter (confConfirmMatch i now) = [r] := by
  have hrid : (r.id == i) = true := by
    have hm : r ∈ db.filter (fun x => x.id == i) := by
      rw [huniq]
      exact List.mem_singleton_self r
    exact (List.mem_filter.mp hm).2
  have hcong : ∀ x ∈ db, confConfirmMatch i now x = (x.id == i) := by
    intro x hx
    by_cases hid : (x.id == i) = true
    · have hxr : x = r := by
        have hm : x ∈ db.filter (fun y => y.id == i) :=
          List.mem_filter.mpr ⟨hx, hid⟩
        rw [huniq] at hm
        exact List.mem_singleton.mp hm
      subst hxr
      rw [hid, confConfirmMatch_true_of i now x (by simpa using hrid) hp hexp]
    · rw [Bool.not_eq_true] at hid
      unfold confConfirmMatch
      rw [hid]
      simp
  rw [List.filter_congr hcong, huniq]

theorem confConfirmApply_id (i : Nat) (now : Int) (r : ConfRow) :
    (confConfirmApply i now r).id = r.id := by
  unfold confConfirmApply
  split <;> rfl

theorem confConfirmApply_tokenHash (i : Nat) (now : Int) (r : ConfRow) :
    (confConfirmApply i now r).tokenHash = r.tokenHash := by
  unfold confConfirmApply
  split <;> rfl

theorem conf_unique_id_mem (db : List ConfRow) (i : Nat) (r : ConfRow)
    (huniq : db.filter (fun x => x.id == i) = [r]) :
    ∀ x ∈ db, x.id = i → x = r := by
  intro x hx hid
  have hm : x ∈ db.filter (fun y => y.id == i) :=
    List.mem_filter.mpr ⟨hx, by simpa using hid⟩
  rw [huniq] at hm
  exact List.mem_singleton.mp hm

theorem conf_rid_of_unique (db : List ConfRow) (i : Nat) (r : ConfRow)
    (huniq : db.filter (fun x => x.id == i) = [r]) : r.id = i := by
  have hm : r ∈ db.filter (fun x => x.id == i) := by
    rw [huniq]
    exact List.mem_singleton_self r
  simpa using (List.mem_filter.mp hm).2

theorem filter_confConfirmMatch_map_nil (db : List ConfRow) (i : Nat)
    (now : Int) (r : ConfRow) (huniq : db.filter (fun x => x.id == i) = [r])
    (hp : r.status = Status.pending) (hexp : now < r.expiresAt) :
    ∀ now2, (db.map (confConfirmApply i now)).filter
      (confConfirmMatch i now2) = [] := by
  intro now2
  apply List.filter_eq_nil_iff.mpr
  intro x hx hmatch
  obtain ⟨y, hy, rfl⟩ := List.mem_map.mp hx
  unfold confConfirmMatch at hmatch
  simp only [Bool.and_eq_true, beq_iff_eq, decide_eq_true_eq] at hmatch
  have hyid : y.id = i := by
    rw [← confConfirmApply_id i now y]
    exact hmatch.1.1
  have hyr : y = r := conf_unique_id_mem db i r huniq y hy hyid
  subst hyr
  have hcm : confConfirmMatch i now y = true :=
    confConfirmMatch_true_of i now y hyid hp hexp
  unfold confConfirmApply at hmatch
  rw [hcm] at hmatch
  simp at hmatch

theorem conf_lookup_after_confirm_none (db : List ConfRow) (i : Nat)
    (now : Int) (r : ConfRow) (hash : String)
    (huniq : db.filter (fun x => x.id == i) = [r])
    (hp : r.status = Status.pending) (hexp : now < r.expiresAt)
    (hhash : ∀ x ∈ db, x.tokenHash = hash → x = r) :
    ∀ now2, getPendingByTokenHashConf (db.map (confConfirmApply i now))
      hash now2 = none := by
  intro now2
  unfold getPendingByTokenHashConf
  have hnil : (db.map (confConfirmApply i now)).filter
      (confRowLive hash now2) = [] := by
    apply List.filter_eq_nil_iff.mpr
    intro x hx hlive
    obtain ⟨y, hy, rfl⟩ := List.mem_map.mp hx
    unfold confRowLive at hlive
    simp only [Bool.and_eq_true, beq_iff_eq, decide_eq_true_eq] at hlive
    have hyh : y.tokenHash = hash := by
      rw [← confConfirmApply_tokenHash i now y]
      exact hlive.1.1
    have hyr : y = r := hhash y hy hyh
    subst hyr
    have hcm : confConfirmMatch i now y = true :=
      confConfirmMatch_true_of i now y (conf_rid_of_unique db i y huniq) hp hexp
    unfold confConfirmApply at hlive
    rw [hcm] at hlive
    simp at hlive
  rw [hnil]
  rfl

/-- C1: the pending-to-confirmed transition is a single conditional UPDATE,
for both confirmation stores.  Parts one and three, at the repository level
(api_token_requests and email_confirmations): when the store holds exactly
one row with the target id, that row pending and unexpired, the conditional
UPDATE affects exactly one row, and every later run of the same UPDATE on
the resulting store (sequentially or as the loser of a concurrent race, at
any clock value) affects zero rows, which the source reports as failure.
Parts two, four and five, at the controller level: redeeming a valid secret
confirms the row and applies the guarded mutation exactly once — one minted
credential (confirmCredentials), one deleted alias (confirmAction,
unsubscribe) or one created alias (confirmAction, subscribe) — and a second
redemption of the same secret answers invalid_or_expired and leaves the
store untouched. -/
theorem C1_exactly_once_redemption :
    (∀ (db : List TokenRow) (i : Nat) (now : Int) (r : TokenRow),
      db.filter (fun x => x.id == i) = [r] →
      r.status = Status.pending → now < r.expiresAt →
      (markConfirmedById db i now).2 = 1 ∧
      ∀ now2 : Int, (markConfirmedById (markConfirmedById db i now).1 i now2).2 = 0) ∧
    (∀ (st : CredState) (now now2 : Int) (tok apiTok apiTok2 : String) (r : TokenRow),
      jsTrim tok = tok →
      isConfirmationCodeValid tok = true →
      getPendingByTokenHash st.reqs (digestOf tok) now = some r →
      st.reqs.filter (fun x => x.id == r.id) = [r] →
      (∀ x ∈ st.reqs, x.tokenHash = digestOf tok → x = r) →
      (confirmCredentials st now (some tok) apiTok false).1 =
        CredResp.ok (jsLowerTrim r.email) apiTok (clampDays r.days) ∧
      (confirmCredentials st now (some tok) apiTok false).2.apiTokens.length =
        st.apiTokens.length + 1 ∧
      confirmCredentials (confirmCredentials st now (some tok) apiTok false).2
          now2 (some tok) apiTok2 false =
        (CredResp.invalidOrExpired,
          (confirmCredentials st now (some tok) apiTok false).2)) ∧
    (∀ (db : List ConfRow) (i : Nat) (now : Int) (r : ConfRow),
      db.filter (fun x => x.id == i) = [r] →
      r.status = Status.pending → now < r.expiresAt →
      (markConfirmedByIdConf db i now).2 = 1 ∧
      ∀ now2 : Int,
        (markConfirmedByIdConf (markConfirmedByIdConf db i now).1 i now2).2 = 0) ∧
    (∀ (st : ForwardState) (now now2 : Int) (tok : String) (nid nid2 : Nat)
        (r : ConfRow) (row : AliasRow),
      jsTrim tok = tok →
      isConfirmationCodeValid tok = true →
      getPendingByTokenHashConf st.confs (digestOf tok) now = some r →
      st.confs.filter (fun x => x.id == r.id) = [r] →
      (∀ x ∈ st.confs, x.tokenHash = digestOf tok → x = r) →
      jsLowerTrim (if r.intent = "" then "subscribe" else r.intent) =
        "unsubscribe" →
      ¬(jsLowerTrim r.email = "") →
      ¬(jsLowerTrim r.aliasName = "") →
      ¬(jsLowerTrim r.aliasDomain = "") →
      getByAddress st.aliases
        (jsLowerTrim r.aliasName ++ "@" ++ jsLowerTrim r.aliasDomain) =
        some row →
      ¬(row.id = 0) →
      jsLowerTrim row.goto = jsLowerTrim r.email →
      confirmAction st now (some tok) nid false =
        (ForwardResp.okRemoved true
          (jsLowerTrim r.aliasName ++ "@" ++ jsLowerTrim r.aliasDomain),
         ⟨(markConfirmedByIdConf st.confs r.id now).1,
          st.aliases.eraseP (fun r2 => r2.address ==
            (jsLowerTrim r.aliasName ++ "@" ++ jsLowerTrim r.aliasDomain)),
          st.activeDomains⟩) ∧
      confirmAction
          ⟨(markConfirmedByIdConf st.confs r.id now).1,
           st.aliases.eraseP (fun r2 => r2.address ==
             (jsLowerTrim r.aliasName ++ "@" ++ jsLowerTrim r.aliasDomain)),
           st.activeDomains⟩ now2 (some tok) nid2 false =
        (ForwardResp.invalidOrExpired,
         ⟨(markConfirmedByIdConf st.confs r.id now).1,
          st.aliases.eraseP (fun r2 => r2.address ==
            (jsLowerTrim r.aliasName ++ "@" ++ jsLowerTrim r.aliasDomain)),
          st.activeDomains⟩)) ∧
    (∀ (st : ForwardState) (now now2 : Int) (tok : String) (nid nid2 : Nat)
        (r : ConfRow),
      jsTrim tok = tok →
      isConfirmationCodeValid tok = true →
      getPendingByTokenHashConf st.confs (digestOf tok) now = some r →
      st.confs.filter (fun x => x.id == r.id) = [r] →
      (∀ x ∈ st.confs, x.tokenHash = digestOf tok → x = r) →
      jsLowerTrim (if r.intent = "" then "subscribe" else r.intent) =
        "subscribe" →
      ¬(jsLowerTrim r.email = "") →
      ¬(jsLowerTrim r.aliasName = "") →
      ¬(jsLowerTrim r.aliasDomain = "") →
      st.activeDomains.contains (jsLowerTrim r.aliasDomain) = true →
      getByAddress st.aliases
        (jsLowerTrim r.aliasName ++ "@" ++ jsLowerTrim r.aliasDomain) = none →
      confirmAction st now (some tok) nid false =
        (ForwardResp.okCreated true
          (jsLowerTrim r.aliasName ++ "@" ++ jsLowerTrim r.aliasDomain)
          (jsLowerTrim r.email),
         ⟨(markConfirmedByIdConf st.confs r.id now).1,
          st.aliases ++
            [⟨nid, jsLowerTrim r.aliasName ++ "@" ++ jsLowerTrim r.aliasDomain,
              jsLowerTrim r.email, true⟩],
          st.activeDomains⟩) ∧
      confirmAction
          ⟨(markConfirmedByIdConf st.confs r.id now).1,
           st.aliases ++
             [⟨nid, jsLowerTrim r.aliasName ++ "@" ++ jsLowerTrim r.aliasDomain,
               jsLowerTrim r.email, true⟩],
           st.activeDomains⟩ now2 (some tok) nid2 false =
        (ForwardResp.invalidOrExpired,
         ⟨(markConfirmedByIdConf st.confs r.id now).1,
          st.aliases ++
            [⟨nid, jsLowerTrim r.aliasName ++ "@" ++ jsLowerTrim r.aliasDomain,
              jsLowerTrim r.email, true⟩],
          st.activeDomains⟩)) := by
  refine ⟨?_, ?_, ?_, ?_, ?_⟩
  · intro db i now r huniq hp hexp
    constructor
    · unfold markConfirmedById
      rw [filter_confirmMatch_of_unique db i now r huniq hp hexp]
      rfl
    · intro now2
      unfold markConfirmedById
      rw [filter_confirmMatch_map_nil db i now r huniq hp hexp now2]
      rfl
  · intro st now now2 tok apiTok apiTok2 r hjt hvalid hlook huniq hhash
    have hne : ¬(tok = "") := valid_code_ne_empty tok hvalid
    obtain ⟨hmem, hrh, hp, hexp⟩ := tokenRowLive_of_lookup _ _ _ _ hlook
    have hcount : (markConfirmedById st.reqs r.id now).2 = 1 := by
      unfold markConfirmedById
      rw [filter_confirmMatch_of_unique st.reqs r.id now r huniq hp hexp]
      rfl
    have hstep : confirmCredentials st now (some tok) apiTok false =
        (CredResp.ok (jsLowerTrim r.email) apiTok (clampDays r.days),
         ⟨(markConfirmedById st.reqs r.id now).1,
          st.apiTokens ++
            [⟨jsLowerTrim r.email, digestOf apiTok, clampDays r.days⟩]⟩) := by
      unfold confirmCredentials normalizeConfirmationCode
      simp [hjt, hne, hvalid, hlook, hcount]
    have hlook2 : getPendingByTokenHash (markConfirmedById st.reqs r.id now).1
        (digestOf tok) now2 = none := by
      unfold markConfirmedById
      exact lookup_after_confirm_none st.reqs r.id now r (digestOf tok)
        huniq hp hexp hhash now2
    have hstep2 : confirmCredentials
        ⟨(markConfirmedById st.reqs r.id now).1,
         st.apiTokens ++
           [⟨jsLowerTrim r.email, digestOf apiTok, clampDays r.days⟩]⟩
        now2 (some tok) apiTok2 false =
        (CredResp.invalidOrExpired,
         ⟨(markConfirmedById st.reqs r.id now).1,
          st.apiTokens ++
            [⟨jsLowerTrim r.email, digestOf apiTok, clampDays r.days⟩]⟩) := by
      unfold confirmCredentials normalizeConfirmationCode
      simp [hjt, hne, hvalid, hlook2]
    refine ⟨?_, ?_, ?_⟩
    · rw [hstep]
    · rw [hstep]
      simp
    · rw [hstep]
      exact hstep2
  · intro db i now r huniq hp hexp
    constructor
    · unfold markConfirmedByIdConf
      rw [filter_confConfirmMatch_of_unique db i now r huniq hp hexp]
      rfl
    · intro now2
      unfold markConfirmedByIdConf
      rw [filter_confConfirmMatch_map_nil db i now r huniq hp hexp now2]
      rfl
  · intro st now now2 tok nid nid2 r row hjt hvalid hlook huniq hhash hint
      hem han had hrow hid hgoto
    obtain ⟨hmem, hrh, hp, hexp⟩ := confRowLive_of_lookup _ _ _ _ hlook
    have hcount : (markConfirmedByIdConf st.confs r.id now).2 = 1 := by
      unfold markConfirmedByIdConf
      rw [filter_confConfirmMatch_of_unique st.confs r.id now r huniq hp hexp]
      rfl
    have hrow2 : st.aliases.find? (fun r2 => r2.address ==
        (jsLowerTrim r.aliasName ++ "@" ++ jsLowerTrim r.aliasDomain)) =
        some row := hrow
    have hpa : (row.address ==
        (jsLowerTrim r.aliasName ++ "@" ++ jsLowerTrim r.aliasDomain)) =
        true := by
      have h3 := List.find?_some hrow2
      simpa using h3
    have hany : st.aliases.any (fun r2 => r2.address ==
        (jsLowerTrim r.aliasName ++ "@" ++ jsLowerTrim r.aliasDomain)) =
        true := by
      apply List.any_eq_true.mpr
      exact ⟨row, List.mem_of_find?_eq_some hrow2, hpa⟩
    have hlook2 : getPendingByTokenHashConf
        (markConfirmedByIdConf st.confs r.id now).1 (digestOf tok) now2 =
        none := by
      unfold markConfirmedByIdConf
      exact conf_lookup_after_confirm_none st.confs r.id now r (digestOf tok)
        huniq hp hexp hhash now2
    constructor
    · unfold confirmAction normalizeConfirmationCode deleteByAddress
      simp [hjt, hvalid, hlook, hem, han, had, hint, hcount, hrow, hid,
        hgoto, hany]
    · unfold confirmAction normalizeConfirmationCode
      simp [hjt, hvalid, hlook2]
  · intro st now now2 tok nid nid2 r hjt hvalid hlook huniq hhash hint
      hem han had hdom hnone
    obtain ⟨hmem, hrh, hp, hexp⟩ := confRowLive_of_lookup _ _ _ _ hlook
    have hcount : (markConfirmedByIdConf st.confs r.id now).2 = 1 := by
      unfold markConfirmedByIdConf
      rw [filter_confConfirmMatch_of_unique st.confs r.id now r huniq hp hexp]
      rfl
    have hnone2 : st.aliases.find? (fun r2 => r2.address ==
        (jsLowerTrim r.aliasName ++ "@" ++ jsLowerTrim r.aliasDomain)) =
        none := hnone
    have hdom2 : jsLowerTrim r.aliasDomain ∈ st.activeDomains := by
      simpa using hdom
    have hlook2 : getPendingByTokenHashConf
        (markConfirmedByIdConf st.confs r.id now).1 (digestOf tok) now2 =
        none := by
      unfold markConfirmedByIdConf
      exact conf_lookup_after_confirm_none st.confs r.id now r (digestOf tok)
        huniq hp hexp hhash now2
    constructor
    · unfold confirmAction normalizeConfirmationCode createIfNotExists
      simp [hjt, hvalid, hlook, hem, han, had, hint, hcount, hdom, hdom2,
        hnone, hnone2]
    · unfold confirmAction normalizeConfirmationCode
      simp [hjt, hvalid, hlook2]

/-- C1 witness: concrete single-row stores for all three redemption paths.
Credential path: the conditional UPDATE affects one row, then zero on a
re-run, and redeeming 123456 mints one credential.  Alias paths: the
email_confirmations conditional UPDATE affects one row; an unsubscribe
redemption of 654321 deletes the alias once and a second redemption answers
invalid_or_expired; a subscribe redemption of 111111 creates the alias once
and a second redemption answers invalid_or_expired. -/
theorem C1_exactly_once_redemption_witness :
    (markConfirmedById
        [⟨1, "user@example.com", "123456", Status.pending, 30, 0, 900000, none, 1, 0⟩]
        1 100).2 = 1 ∧
    (markConfirmedById
      (markConfirmedById
        [⟨1, "user@example.com", "123456", Status.pending, 30, 0, 900000, none, 1, 0⟩]
        1 100).1 1 200).2 = 0 ∧
    (confirmCredentials
        ⟨[⟨1, "user@example.com", "123456", Status.pending, 30, 0, 900000, none, 1, 0⟩], []⟩
        100 (some "123456") "APITOKEN" false).1 =
      CredResp.ok "user@example.com" "APITOKEN" 30 ∧
    (markConfirmedByIdConf
        [⟨1, "user@example.com", "654321", Status.pending, 0, 900000, none, 1,
          0, 0, "unsubscribe", "alias1", "example.com"⟩] 1 100).2 = 1 ∧
    (confirmAction
        ⟨[⟨1, "user@example.com", "654321", Status.pending, 0, 900000, none, 1,
            0, 0, "unsubscribe", "alias1", "example.com"⟩],
         [⟨5, "alias1@example.com", "user@example.com", true⟩], []⟩
        100 (some "654321") 99 false).1 =
      ForwardResp.okRemoved true "alias1@example.com" ∧
    (confirmAction
        (confirmAction
          ⟨[⟨1, "user@example.com", "654321", Status.pending, 0, 900000, none, 1,
              0, 0, "unsubscribe", "alias1", "example.com"⟩],
           [⟨5, "alias1@example.com", "user@example.com", true⟩], []⟩
          100 (some "654321") 99 false).2
        200 (some "654321") 98 false).1 = ForwardResp.invalidOrExpired ∧
    (confirmAction
        ⟨[⟨3, "user@example.com", "111111", Status.pending, 0, 900000, none, 1,
            0, 0, "subscribe", "alias2", "example.com"⟩],
         [], ["example.com"]⟩
        100 (some "111111") 42 false).1 =
      ForwardResp.okCreated true "alias2@example.com" "user@example.com" ∧
    (confirmAction
        (confirmAction
          ⟨[⟨3, "user@example.com", "111111", Status.pending, 0, 900000, none, 1,
              0, 0, "subscribe", "alias2", "example.com"⟩],
           [], ["example.com"]⟩
          100 (some "111111") 42 false).2
        200 (some "111111") 43 false).1 = ForwardResp.invalidOrExpired := by
  have h1 := (C1_exactly_once_redemption.1
    [⟨1, "user@example.com", "123456", Status.pending, 30, 0, 900000, none, 1, 0⟩]
    1 100
    ⟨1, "user@example.com", "123456", Status.pending, 30, 0, 900000, none, 1, 0⟩
    (by decide) (by decide) (by decide))
  have h2 := (C1_exactly_once_redemption.2.1
    ⟨[⟨1, "user@example.com", "123456", Status.pending, 30, 0, 900000, none, 1, 0⟩], []⟩
    100 200 "123456" "APITOKEN" "APITOKEN2"
    ⟨1, "user@example.com", "123456", Status.pending, 30, 0, 900000, none, 1, 0⟩
    (by decide) (by decide) (by decide) (by decide) (by decide))
  have h3 := (C1_exactly_once_redemption.2.2.1
    [⟨1, "user@example.com", "654321", Status.pending, 0, 900000, none, 1,
      0, 0, "unsubscribe", "alias1", "example.com"⟩] 1 100
    ⟨1, "user@example.com", "654321", Status.pending, 0, 900000, none, 1,
      0, 0, "unsubscribe", "alias1", "example.com"⟩
    (by decide) (by decide) (by decide))
  have h4 := (C1_exactly_once_redemption.2.2.2.1
    ⟨[⟨1, "user@example.com", "654321", Status.pending, 0, 900000, none, 1,
        0, 0, "unsubscribe", "alias1", "example.com"⟩],
     [⟨5, "alias1@example.com", "user@example.com", true⟩], []⟩
    100 200 "654321" 99 98
    ⟨1, "user@example.com", "654321", Status.pending, 0, 900000, none, 1,
      0, 0, "unsubscribe", "alias1", "example.com"⟩
    ⟨5, "alias1@example.com", "user@example.com", true⟩
    (by decide) (by decide) (by decide) (by decide) (by decide) (by decide)
    (by decide) (by decide) (by decide) (by decide) (by decide) (by decide))
  have h5 := (C1_exactly_once_redemption.2.2.2.2
    ⟨[⟨3, "user@example.com", "111111", Status.pending, 0, 900000, none, 1,
        0, 0, "subscribe", "alias2", "example.com"⟩],
     [], ["example.com"]⟩
    100 200 "111111" 42 43
    ⟨3, "user@example.com", "111111", Status.pending, 0, 900000, none, 1,
      0, 0, "subscribe", "alias2", "example.com"⟩
    (by decide) (by decide) (by decide) (by decide) (by decide) (by decide)
    (by decide) (by decide) (by decide) (by decide) (by decide))
  refine ⟨h1.1, h1.2 200, ?_, h3.1, ?_, ?_, ?_, ?_⟩
  · rw [h2.1]
    decide
  · rw [h4.1]
    decide
  · simp only [h4.1]
    rw [h4.2]
  · rw [h5.1]
    decide
  · simp only [h5.1]
    rw [h5.2]

/-- C8 witness: a live row is returned by the lookup only with status pending
and a future expiry, and a store whose only row with the target id is already
past its expiry is left untouched with zero affected rows. -/
theorem C8_expired_unredeemable_witness :
    (TokenRow.status
        ⟨1, "u@example.com", "h123", Status.pending, 30, 0, 900000, none, 1, 0⟩ =
        Status.pending ∧ (100 : Int) < 900000) ∧
    markConfirmedById
        [⟨2, "v@example.com", "h9", Status.pending, 30, 0, 50, none, 1, 0⟩] 2 100 =
      ([⟨2, "v@example.com", "h9", Status.pending, 30, 0, 50, none, 1, 0⟩], 0) := by
  constructor
  · exact (C8_expired_unredeemable
      [⟨1, "u@example.com", "h123", Status.pending, 30, 0, 900000, none, 1, 0⟩] 100).1
      "h123"
      ⟨1, "u@example.com", "h123", Status.pending, 30, 0, 900000, none, 1, 0⟩
      (by decide)
  · exact (C8_expired_unredeemable
      [⟨2, "v@example.com", "h9", Status.pending, 30, 0, 50, none, 1, 0⟩] 100).2
      2 (by decide)

/-! ## Claim C2: the credential issuer's secrets meet the confirm endpoint -/

theorem dropWhile_eq_self_of_none {α : Type} (p : α → Bool) (l : List α)
    (h : ∀ c ∈ l, p c = false) : l.dropWhile p = l := by
  cases l with
  | nil => rfl
  | cons hd tl =>
    have hh := h hd (List.mem_cons_self hd tl)
    simp [List.dropWhile_cons, hh]

theorem trimChars_eq_self (l : List Char) (h : ∀ c ∈ l, wsChar c = false) :
    trimChars l = l := by
  unfold trimChars
  rw [dropWhile_eq_self_of_none _ l h]
  rw [dropWhile_eq_self_of_none _ l.reverse
    (fun c hc => h c (List.mem_reverse.mp hc))]
  exact List.reverse_reverse l

theorem base62Accept_mem (bytes : List Nat) :
    ∀ c ∈ base62Accept bytes, c ∈ BASE62 := by
  intro c hc
  unfold base62Accept at hc
  obtain ⟨x, _, hcx⟩ := List.mem_filterMap.mp hc
  by_cases h : x < 248
  · rw [if_pos h] at hcx
    injection hcx with h2
    subst h2
    have hlt : x % 62 < BASE62.length := by
      have : BASE62.length = 62 := rfl
      rw [this]
      exact Nat.mod_lt x (by norm_num)
    rw [List.getD_eq_getElem BASE62 '0' hlt]
    exact List.getElem_mem hlt
  · rw [if_neg h] at hcx
    cases hcx

theorem BASE62_not_ws : ∀ c ∈ BASE62, wsChar c = false := by decide

theorem generateBase62Token_shape (len : Nat) (bytes : List Nat)
    (hbytes : len ≤ (base62Accept bytes).length) :
    (generateBase62Token len bytes).data.length = len ∧
      ∀ c ∈ (generateBase62Token len bytes).data, c ∈ BASE62 := by
  unfold generateBase62Token
  constructor
  · simp only [List.length_take]
    omega
  · intro c hc
    exact base62Accept_mem bytes c (List.take_subset _ _ hc)

/-- C2: the secrets the credential issuer can produce never pass the confirm
endpoint's shape check.  generateBase62Token — the only secret generator of
upsertPendingByEmailTx, whose length is always between MIN_TOKEN_LEN = 12 and
MAX_TOKEN_LEN = 64 — yields strings that isConfirmationCodeValid (exactly six
decimal digits) always rejects, so confirmCredentials answers invalid_token
before any digest lookup, for every store state: the issue/redeem round trip
of the claim is impossible. -/
theorem C2_issuer_secret_rejected_by_confirm (len : Nat) (bytes : List Nat)
    (st : CredState) (now : Int) (apiTok : String) (mintFails : Bool)
    (hmin : MIN_TOKEN_LEN ≤ len)
    (hbytes : len ≤ (base62Accept bytes).length) :
    isConfirmationCodeValid (generateBase62Token len bytes) = false ∧
    confirmCredentials st now (some (generateBase62Token len bytes)) apiTok
        mintFails = (CredResp.invalidToken, st) := by
  obtain ⟨hl, hchars⟩ := generateBase62Token_shape len bytes hbytes
  have hmin12 : 12 ≤ len := hmin
  have hinv : isConfirmationCodeValid (generateBase62Token len bytes) = false := by
    unfold isConfirmationCodeValid
    have hb : ((generateBase62Token len bytes).data.length == 6) = false := by
      rw [hl, beq_eq_false_iff_ne]
      omega
    rw [hb]
    rfl
  have htrim : jsTrim (generateBase62Token len bytes) =
      generateBase62Token len bytes := by
    unfold jsTrim
    rw [trimChars_eq_self _ (fun c hc => BASE62_not_ws c (hchars c hc))]
  have hne : ¬(generateBase62Token len bytes = "") := by
    intro h
    rw [h] at hl
    simp at hl
    omega
  refine ⟨hinv, ?_⟩
  unfold confirmCredentials normalizeConfirmationCode
  simp [htrim, hne, hinv]

/-- C2 witness: the 12-character token drawn from an all-zero byte stream
(the string 000000000000) is rejected as invalid_token by the confirm
endpoint on any store. -/
theorem C2_issuer_secret_rejected_by_confirm_witness :
    isConfirmationCodeValid (generateBase62Token 12 (List.replicate 12 0)) = false ∧
    confirmCredentials ⟨[], []⟩ 0
        (some (generateBase62Token 12 (List.replicate 12 0))) "A" false =
      (CredResp.invalidToken, ⟨[], []⟩) :=
  C2_issuer_secret_rejected_by_confirm 12 (List.replicate 12 0) ⟨[], []⟩ 0 "A"
    false (by decide) (by decide)

/-! ## Claim C6: confirmed-but-unapplied reporting -/

/-- C6 counterexample: with the guarded mutation (credential minting)
failing after the row was marked Confirmed, the credentials confirm
controller reports the generic internal_error — not a condition of its own,
contradicting the claim that the failure is surfaced distinctly from the
generic internal error. -/
theorem C6_mutator_failure_generic_internal_cex :
    (confirmCredentials
        ⟨[⟨1, "user@example.com", "123456", Status.pending, 30, 0, 900000,
            none, 1, 0⟩], []⟩
        100 (some "123456") "APITOKEN" true).1 = CredResp.internalError := by
  decide

/-- C6 amended: if the guarded mutation fails after the confirmation row has
been marked Confirmed, the row stays Confirmed and the secret is not reusable
(re-redemption answers invalid_or_expired), no credential is minted, and the
failure is surfaced distinctly from the redemption failure invalid_or_expired
— but as the generic internal_error, via the controller's outer catch, not as
a condition of its own. -/
theorem C6_confirmed_but_unapplied_amended
    (st : CredState) (now now2 : Int) (tok apiTok apiTok2 : String)
    (r : TokenRow)
    (hjt : jsTrim tok = tok)
    (hvalid : isConfirmationCodeValid tok = true)
    (hlook : getPendingByTokenHash st.reqs (digestOf tok) now = some r)
    (huniq : st.reqs.filter (fun x => x.id == r.id) = [r])
    (hhash : ∀ x ∈ st.reqs, x.tokenHash = digestOf tok → x = r) :
    (confirmCredentials st now (some tok) apiTok true).1 =
      CredResp.internalError ∧
    (confirmCredentials st now (some tok) apiTok true).1 ≠
      CredResp.invalidOrExpired ∧
    (confirmCredentials st now (some tok) apiTok true).2.apiTokens =
      st.apiTokens ∧
    (∀ x ∈ (confirmCredentials st now (some tok) apiTok true).2.reqs,
      x.id = r.id → x.status = Status.confirmed) ∧
    (∀ b : Bool,
      confirmCredentials (confirmCredentials st now (some tok) apiTok true).2
          now2 (some tok) apiTok2 b =
        (CredResp.invalidOrExpired,
          (confirmCredentials st now (some tok) apiTok true).2)) := by
  have hne := valid_code_ne_empty tok hvalid
  obtain ⟨hmem, hrh, hp, hexp⟩ := tokenRowLive_of_lookup _ _ _ _ hlook
  have hcount : (markConfirmedById st.reqs r.id now).2 = 1 := by
    unfold markConfirmedById
    rw [filter_confirmMatch_of_unique st.reqs r.id now r huniq hp hexp]
    rfl
  have hstep : confirmCredentials st now (some tok) apiTok true =
      (CredResp.internalError,
       ⟨(markConfirmedById st.reqs r.id now).1, st.apiTokens⟩) := by
    unfold confirmCredentials normalizeConfirmationCode
    simp [hjt, hne, hvalid, hlook, hcount]
  have hlook2 : getPendingByTokenHash (markConfirmedById st.reqs r.id now).1
      (digestOf tok) now2 = none := by
    unfold markConfirmedById
    exact lookup_after_confirm_none st.reqs r.id now r (digestOf tok)
      huniq hp hexp hhash now2
  have hconf : ∀ x ∈ (markConfirmedById st.reqs r.id now).1,
      x.id = r.id → x.status = Status.confirmed := by
    intro x hx hid
    have hx2 : x ∈ st.reqs.map (confirmApply r.id now) := hx
    obtain ⟨y, hy, rfl⟩ := List.mem_map.mp hx2
    have hyid : y.id = r.id := by
      rw [← confirmApply_id r.id now y]
      exact hid
    have hyr : y = r := unique_id_mem st.reqs r.id r huniq y hy hyid
    have hcm : confirmMatch r.id now y = true := by
      rw [hyr]
      exact confirmMatch_true_of r.id now r rfl hp hexp
    unfold confirmApply
    rw [hcm]
    rfl
  refine ⟨by rw [hstep], by rw [hstep]; simp, by rw [hstep], ?_, ?_⟩
  · intro x hx hid
    rw [hstep] at hx
    exact hconf x hx hid
  · intro b
    have hstep2 : confirmCredentials
        ⟨(markConfirmedById st.reqs r.id now).1, st.apiTokens⟩
        now2 (some tok) apiTok2 b =
        (CredResp.invalidOrExpired,
         ⟨(markConfirmedById st.reqs r.id now).1, st.apiTokens⟩) := by
      unfold confirmCredentials normalizeConfirmationCode
      simp [hjt, hne, hvalid, hlook2]
    rw [hstep]
    exact hstep2

/-- C6 amended witness: a concrete pending row, minting fails after the
confirm: the response is internal_error, the row stays Confirmed in the
resulting store, and no credential is minted. -/
theorem C6_confirmed_but_unapplied_amended_witness :
    (confirmCredentials
        ⟨[⟨2, "u2@example.com", "222222", Status.pending, 10, 0, 900000,
            none, 1, 0⟩], []⟩
        100 (some "222222") "APITOK2" true).1 = CredResp.internalError ∧
    (confirmCredentials
        ⟨[⟨2, "u2@example.com", "222222", Status.pending, 10, 0, 900000,
            none, 1, 0⟩], []⟩
        100 (some "222222") "APITOK2" true).2.apiTokens = [] := by
  have h := C6_confirmed_but_unapplied_amended
    ⟨[⟨2, "u2@example.com", "222222", Status.pending, 10, 0, 900000,
        none, 1, 0⟩], []⟩
    100 200 "222222" "APITOK2" "APITOK3"
    ⟨2, "u2@example.com", "222222", Status.pending, 10, 0, 900000, none, 1, 0⟩
    (by decide) (by decide) (by decide) (by decide) (by decide)
  exact ⟨h.1, h.2.2.1⟩

/-! ## Claim C5: duplicate-insert race resolution -/

theorem maxById_acc_some {α : Type} (idOf : α → Nat) (rs : List α) :
    ∀ a : α, rs.foldl (fun acc r =>
        match acc with
        | none => some r
        | some x => if idOf x < idOf r then some r else some x) (some a) ≠
      none := by
  induction rs with
  | nil =>
    intro a h
    cases h
  | cons hd tl ih =>
    intro a h
    rw [List.foldl_cons] at h
    simp only at h
    split at h
    · exact ih hd h
    · exact ih a h

theorem maxById_eq_none {α : Type} (idOf : α → Nat) (rs : List α)
    (h : maxById idOf rs = none) : rs = [] := by
  cases rs with
  | nil => rfl
  | cons hd tl =>
    unfold maxById at h
    rw [List.foldl_cons] at h
    simp only at h
    exact absurd h (maxById_acc_some idOf tl hd)

theorem selectPending_none_filter_nil (db : List TokenRow) (email : String)
    (h : selectPendingForUpdate db email = none) :
    db.filter (fun r => r.email == email && r.status == Status.pending) = [] := by
  unfold selectPendingForUpdate latestBy at h
  exact maxById_eq_none _ _ h

/-- C5 counterexample: a brand-new insert loses the race against a concurrent
pending row whose sendCount already equals maxSends = 3.  The claim demands
rate_limited here (or resent with a fresh plaintext below the limit); the
source instead answers cooldown and issues no plaintext. -/
theorem C5_dup_insert_returns_cooldown_cex :
    (upsertPendingByEmailTx [] ⟨"user@example.com", 30, 15, 60, 3⟩ 0 1 "TOKB"
        (some ⟨7, "user@example.com", "HASHX", Status.pending, 30, 0, 900000,
          none, 3, 0⟩)).action = UpsertAction.cooldown ∧
    (upsertPendingByEmailTx [] ⟨"user@example.com", 30, 15, 60, 3⟩ 0 1 "TOKB"
        (some ⟨7, "user@example.com", "HASHX", Status.pending, 30, 0, 900000,
          none, 3, 0⟩)).action ≠ UpsertAction.rateLimited ∧
    (upsertPendingByEmailTx [] ⟨"user@example.com", 30, 15, 60, 3⟩ 0 1 "TOKB"
        (some ⟨7, "user@example.com", "HASHX", Status.pending, 30, 0, 900000,
          none, 3, 0⟩)).tokenPlain = none := by
  decide

/-- C5 amended: when the fresh INSERT raises the uniqueness violation because
a concurrent transaction created the pending row first, the source re-selects
the existing row under lock and returns action cooldown with that row's meta
— it does not rotate the secret, does not issue a new plaintext, and does not
consult the max-sends bound; the store is the swept table plus the
concurrently inserted row, unchanged. -/
theorem C5_dup_insert_race_amended (db : List TokenRow) (a : UpsertArgs)
    (now : Int) (newId : Nat) (token : String) (c : TokenRow)
    (hnone : selectPendingForUpdate (expireStalePending db a.email now)
      a.email = none)
    (hc1 : c.email = a.email) (hc2 : c.status = Status.pending) :
    upsertPendingByEmailTx db a now newId token (some c) =
      ⟨UpsertAction.cooldown, none,
        expireStalePending db a.email now ++ [c]⟩ := by
  have hsel3 : selectPendingForUpdate
      (expireStalePending db a.email now ++ [c]) a.email = some c := by
    unfold selectPendingForUpdate
    rw [List.filter_append]
    rw [selectPending_none_filter_nil _ _ hnone]
    have hfc : List.filter
        (fun r => r.email == a.email && r.status == Status.pending) [c] = [c] := by
      simp [List.filter, hc1, hc2]
    rw [hfc]
    rfl
  unfold upsertPendingByEmailTx upsertInsertPhase
  simp [hnone, hsel3]

/-- C5 amended witness: concrete duplicate-insert race against a concurrent
row with sendCount 1; the result is cooldown with no plaintext and the
untouched concurrent row. -/
theorem C5_dup_insert_race_amended_witness :
    upsertPendingByEmailTx [] ⟨"w@example.com", 7, 15, 60, 3⟩ 0 9 "TOKC"
        (some ⟨4, "w@example.com", "HASHY", Status.pending, 7, 0, 900000,
          none, 1, 0⟩) =
      ⟨UpsertAction.cooldown, none,
        expireStalePending [] "w@example.com" 0 ++
          [⟨4, "w@example.com", "HASHY", Status.pending, 7, 0, 900000,
            none, 1, 0⟩]⟩ :=
  C5_dup_insert_race_amended [] ⟨"w@example.com", 7, 15, 60, 3⟩ 0 9 "TOKC"
    ⟨4, "w@example.com", "HASHY", Status.pending, 7, 0, 900000, none, 1, 0⟩
    (by decide) (by decide) (by decide)

/-! ## Claim C3: send-count behaviour of both issuing flows -/

theorem expireStalePending_pointwise (db : List TokenRow) (email : String)
    (now : Int) :
    ∀ x ∈ expireStalePending db email now,
      ∃ y, y ∈ db ∧ y.id = x.id ∧ y.sendCount = x.sendCount := by
  intro x hx
  obtain ⟨y, hy, rfl⟩ := List.mem_map.mp hx
  refine ⟨y, hy, ?_, ?_⟩ <;> (split <;> rfl)

theorem expirePendingById_pointwise (db : List TokenRow) (i : Nat) :
    ∀ x ∈ expirePendingById db i,
      ∃ y, y ∈ db ∧ y.id = x.id ∧ y.sendCount = x.sendCount := by
  intro x hx
  obtain ⟨y, hy, rfl⟩ := List.mem_map.mp hx
  refine ⟨y, hy, ?_, ?_⟩ <;> (split <;> rfl)

theorem rotateGuard_pointwise (now : Int) (ttl : Nat) (days : Int)
    (token : String) (pid : Nat) :
    ∀ y : TokenRow,
      (if y.id == pid then rotateRow now ttl days token y else y).id = y.id ∧
      y.sendCount ≤
        (if y.id == pid then rotateRow now ttl days token y else y).sendCount := by
  intro y
  constructor <;> (split <;> simp [rotateRow])

theorem upsert_db_mono (db : List TokenRow) (a : UpsertArgs) (now : Int)
    (newId : Nat) (token : String) :
    ∀ x ∈ (upsertPendingByEmailTx db a now newId token none).db,
      (∃ y, y ∈ db ∧ y.id = x.id ∧ y.sendCount ≤ x.sendCount) ∨
        (x.id = newId ∧ x.sendCount = 1) := by
  have hsweep : ∀ x ∈ expireStalePending db a.email now,
      (∃ y, y ∈ db ∧ y.id = x.id ∧ y.sendCount ≤ x.sendCount) ∨
        (x.id = newId ∧ x.sendCount = 1) := by
    intro x h1
    obtain ⟨y, hy, h3, h4⟩ := expireStalePending_pointwise db a.email now x h1
    exact Or.inl ⟨y, hy, h3, le_of_eq h4⟩
  have happend : ∀ l : List TokenRow,
      (∀ x ∈ l, (∃ y, y ∈ db ∧ y.id = x.id ∧ y.sendCount ≤ x.sendCount) ∨
        (x.id = newId ∧ x.sendCount = 1)) →
      ∀ x ∈ l ++ [newPendingRow a now newId token],
        (∃ y, y ∈ db ∧ y.id = x.id ∧ y.sendCount ≤ x.sendCount) ∨
          (x.id = newId ∧ x.sendCount = 1) := by
    intro l hl x hx
    rcases List.mem_append.mp hx with h1 | h2
    · exact hl x h1
    · have hx2 := List.mem_singleton.mp h2
      subst hx2
      exact Or.inr ⟨rfl, rfl⟩
  intro x hx
  unfold upsertPendingByEmailTx upsertInsertPhase at hx
  dsimp only at hx
  split at hx
  · rename_i p heq
    split at hx
    · dsimp only at hx
      refine happend _ ?_ x hx
      intro z hz
      obtain ⟨y1, hy1, h3, h4⟩ := expirePendingById_pointwise
        (expireStalePending db a.email now) p.id z hz
      obtain ⟨y0, hy0, h5, h6⟩ := expireStalePending_pointwise db a.email now y1 hy1
      exact Or.inl ⟨y0, hy0, by rw [h5, h3], by rw [h6, h4]⟩
    · have hrotcase : ∀ z ∈ (expireStalePending db a.email now).map
          (fun r => if r.id == p.id then
            rotateRow now a.ttlMinutes a.days token r else r),
          (∃ y, y ∈ db ∧ y.id = z.id ∧ y.sendCount ≤ z.sendCount) ∨
            (z.id = newId ∧ z.sendCount = 1) := by
        intro z hz
        obtain ⟨y1, hy1, rfl⟩ := List.mem_map.mp hz
        obtain ⟨y0, hy0, h5, h6⟩ :=
          expireStalePending_pointwise db a.email now y1 hy1
        have hr := rotateGuard_pointwise now a.ttlMinutes a.days token p.id y1
        refine Or.inl ⟨y0, hy0, ?_, ?_⟩
        · rw [h5, hr.1]
        · rw [h6]
          exact hr.2
      split at hx
      · split at hx
        · try dsimp only at hx
          exact hsweep x hx
        · split at hx
          · try dsimp only at hx
            exact hsweep x hx
          · try dsimp only at hx
            exact hrotcase x hx
      · split at hx
        · rename_i hco
          exact absurd hco (by simp)
        · split at hx
          · try dsimp only at hx
            exact hsweep x hx
          · try dsimp only at hx
            exact hrotcase x hx
  · dsimp only at hx
    exact happend _ hsweep x hx

theorem sweepApply_id (email : String) (now : Int) (r : TokenRow) :
    (if sweepMatch email now r then { r with status := Status.expired } else r).id
      = r.id := by
  split <;> rfl

theorem upsert_db_bounded (db : List TokenRow) (a : UpsertArgs) (now : Int)
    (newId : Nat) (token : String)
    (huniq : ∀ x y, x ∈ db → y ∈ db → x.id = y.id → x = y)
    (hmax1 : 1 ≤ a.maxSendCount)
    (hbound : ∀ y ∈ db, y.sendCount ≤ a.maxSendCount) :
    ∀ x ∈ (upsertPendingByEmailTx db a now newId token none).db,
      x.sendCount ≤ a.maxSendCount := by
  have hsweepb : ∀ x ∈ expireStalePending db a.email now,
      x.sendCount ≤ a.maxSendCount := by
    intro x h1
    obtain ⟨y, hy, _, h4⟩ := expireStalePending_pointwise db a.email now x h1
    rw [← h4]
    exact hbound y hy
  have happend : ∀ l : List TokenRow,
      (∀ x ∈ l, x.sendCount ≤ a.maxSendCount) →
      ∀ x ∈ l ++ [newPendingRow a now newId token],
        x.sendCount ≤ a.maxSendCount := by
    intro l hl x hx
    rcases List.mem_append.mp hx with h1 | h2
    · exact hl x h1
    · have hx2 := List.mem_singleton.mp h2
      subst hx2
      exact hmax1
  intro x hx
  unfold upsertPendingByEmailTx upsertInsertPhase at hx
  dsimp only at hx
  split at hx
  · rename_i p heq
    have hpmem : p ∈ expireStalePending db a.email now := by
      unfold selectPendingForUpdate at heq
      exact List.mem_of_mem_filter (latestBy_mem _ p heq)
    split at hx
    · try dsimp only at hx
      refine happend _ ?_ x hx
      intro z hz
      obtain ⟨y1, hy1, _, h4⟩ := expirePendingById_pointwise
        (expireStalePending db a.email now) p.id z hz
      rw [← h4]
      exact hsweepb y1 hy1
    · have hresent : ¬(a.maxSendCount ≤ p.sendCount) →
          ∀ z ∈ (expireStalePending db a.email now).map
            (fun r => if r.id == p.id then
              rotateRow now a.ttlMinutes a.days token r else r),
          z.sendCount ≤ a.maxSendCount := by
        intro hmaxlt z hz
        obtain ⟨y1, hy1, rfl⟩ := List.mem_map.mp hz
        by_cases hid : (y1.id == p.id) = true
        · have hy1p : y1 = p := by
            obtain ⟨y0, hy0, hfy0⟩ := List.mem_map.mp hy1
            obtain ⟨q0, hq0, hfq0⟩ := List.mem_map.mp hpmem
            have hid1 : y1.id = p.id := by simpa using hid
            have hidy : y0.id = y1.id := by
              rw [← hfy0]
              exact (sweepApply_id a.email now y0).symm
            have hidq : q0.id = p.id := by
              rw [← hfq0]
              exact (sweepApply_id a.email now q0).symm
            have h0 : y0 = q0 := huniq y0 q0 hy0 hq0 (by omega)
            rw [← hfy0, ← hfq0, h0]
          rw [if_pos hid, hy1p]
          unfold rotateRow
          simp only
          omega
        · rw [if_neg hid]
          exact hsweepb y1 hy1
      split at hx
      · split at hx
        · try dsimp only at hx
          exact hsweepb x hx
        · split at hx
          · try dsimp only at hx
            exact hsweepb x hx
          · rename_i hmaxlt
            try dsimp only at hx
            exact hresent hmaxlt x hx
      · split at hx
        · rename_i hco
          exact absurd hco (by simp)
        · split at hx
          · try dsimp only at hx
            exact hsweepb x hx
          · rename_i hmaxlt
            try dsimp only at hx
            exact hresent hmaxlt x hx
  · try dsimp only at hx
    exact happend _ hsweepb x hx

theorem upsert_rate_limited_no_mutation (db : List TokenRow) (a : UpsertArgs)
    (now : Int) (newId : Nat) (token : String) (p : TokenRow)
    (hsel : selectPendingForUpdate (expireStalePending db a.email now)
      a.email = some p)
    (hnexp : ¬(p.expiresAt ≤ now))
    (hncd : (if 0 < a.cooldownSeconds then
        decide (now < p.lastSentAt + (a.cooldownSeconds : Int) * 1000)
      else false) = false)
    (hmax : a.maxSendCount ≤ p.sendCount) :
    upsertPendingByEmailTx db a now newId token none =
      ⟨UpsertAction.rateLimited, none, expireStalePending db a.email now⟩ ∧
    p ∈ expireStalePending db a.email now := by
  constructor
  · unfold upsertPendingByEmailTx
    simp [hsel, hnexp, hncd, hmax]
  · unfold selectPendingForUpdate at hsel
    exact List.mem_of_mem_filter (latestBy_mem _ p hsel)

theorem alias_send_mono (db : List ConfRow) (now : Int) (cd ttl : Nat)
    (email intent aliasName aliasDomain token : String) (newId : Nat) :
    ∀ x ∈ (sendEmailConfirmation db now cd ttl email intent aliasName
        aliasDomain token newId).2,
      (∃ y, y ∈ db ∧ y.id = x.id ∧ y.sendCount ≤ x.sendCount) ∨
        (x.id = newId ∧ x.sendCount = 1) := by
  intro x hx
  unfold sendEmailConfirmation rotateTokenForPendingConf createPendingConf at hx
  dsimp only at hx
  split at hx
  · split at hx
    · exact Or.inl ⟨x, hx, rfl, le_rfl⟩
    · split at hx
      · try dsimp only at hx
        exact Or.inl ⟨x, hx, rfl, le_rfl⟩
      · try dsimp only at hx
        obtain ⟨y, hy, rfl⟩ := List.mem_map.mp hx
        refine Or.inl ⟨y, hy, ?_, ?_⟩
        · split <;> rfl
        · split <;> simp
  · try dsimp only at hx
    rcases List.mem_append.mp hx with h1 | h2
    · obtain ⟨y, hy, rfl⟩ := List.mem_map.mp h1
      refine Or.inl ⟨y, hy, ?_, ?_⟩
      · split <;> rfl
      · split <;> simp
    · have hx2 := List.mem_singleton.mp h2
      subst hx2
      exact Or.inr ⟨rfl, rfl⟩

/-- C3 counterexample: in the alias subscribe/unsubscribe flow, a pending row
whose sendCount already equals the credential flow's configured maximum of 3
is still rotated once the cooldown has elapsed — sendCount grows to 4 and the
resend is not refused, because this flow never consults any maximum. -/
theorem C3_alias_resend_unbounded_cex :
    (sendEmailConfirmation
        [⟨1, "user@example.com", "HASH0", Status.pending, 0, 900000, none, 3, 0,
          0, "subscribe", "alias1", "example.com"⟩]
        61000 60 10 "user@example.com" "subscribe" "alias1" "example.com"
        "HASH1" 2).1 = AliasSendOutcome.rotated ∧
    sendCountAtConf
      (sendEmailConfirmation
        [⟨1, "user@example.com", "HASH0", Status.pending, 0, 900000, none, 3, 0,
          0, "subscribe", "alias1", "example.com"⟩]
        61000 60 10 "user@example.com" "subscribe" "alias1" "example.com"
        "HASH1" 2).2 1 = some 4 := by
  decide

/-- C3 amended: sendCount is monotonically non-decreasing in both issuing
flows (every surviving row keeps at least its old sendCount, fresh rows start
at 1).  In the credential-issue flow it is additionally bounded by the
configured maximum, and once sendCount has reached the maximum a resend
request outside the cooldown window is refused as rate_limited without
mutating any row — the still-valid pending row survives unchanged.  The alias
subscribe/unsubscribe flow enforces only the cooldown: it has no maximum, and
past the cooldown it always rotates and increments (unboundedly). -/
theorem C3_sendCount_monotone_bounded_amended :
    (∀ (db : List TokenRow) (a : UpsertArgs) (now : Int) (newId : Nat)
        (token : String),
      ∀ x ∈ (upsertPendingByEmailTx db a now newId token none).db,
        (∃ y, y ∈ db ∧ y.id = x.id ∧ y.sendCount ≤ x.sendCount) ∨
          (x.id = newId ∧ x.sendCount = 1)) ∧
    (∀ (db : List TokenRow) (a : UpsertArgs) (now : Int) (newId : Nat)
        (token : String),
      (∀ x y, x ∈ db → y ∈ db → x.id = y.id → x = y) →
      1 ≤ a.maxSendCount →
      (∀ y ∈ db, y.sendCount ≤ a.maxSendCount) →
      ∀ x ∈ (upsertPendingByEmailTx db a now newId token none).db,
        x.sendCount ≤ a.maxSendCount) ∧
    (∀ (db : List TokenRow) (a : UpsertArgs) (now : Int) (newId : Nat)
        (token : String) (p : TokenRow),
      selectPendingForUpdate (expireStalePending db a.email now) a.email =
        some p →
      ¬(p.expiresAt ≤ now) →
      ((if 0 < a.cooldownSeconds then
          decide (now < p.lastSentAt + (a.cooldownSeconds : Int) * 1000)
        else false) = false) →
      a.maxSendCount ≤ p.sendCount →
      upsertPendingByEmailTx db a now newId token none =
        ⟨UpsertAction.rateLimited, none, expireStalePending db a.email now⟩ ∧
      p ∈ expireStalePending db a.email now) ∧
    (∀ (db : List ConfRow) (now : Int) (cd ttl : Nat)
        (email intent aliasName aliasDomain token : String) (newId : Nat),
      ∀ x ∈ (sendEmailConfirmation db now cd ttl email intent aliasName
          aliasDomain token newId).2,
        (∃ y, y ∈ db ∧ y.id = x.id ∧ y.sendCount ≤ x.sendCount) ∨
          (x.id = newId ∧ x.sendCount = 1)) :=
  ⟨upsert_db_mono, upsert_db_bounded, upsert_rate_limited_no_mutation,
    alias_send_mono⟩

/-- C3 amended witness: a credential-flow pending row at sendCount 3 with
maxSends 3, outside the cooldown window, answers rate_limited, the store is
only swept, and the untouched row survives. -/
theorem C3_sendCount_monotone_bounded_amended_witness :
    upsertPendingByEmailTx
        [⟨1, "m@example.com", "H1", Status.pending, 5, 0, 900000, none, 3, 0⟩]
        ⟨"m@example.com", 5, 15, 60, 3⟩ 61000 2 "TOKD" none =
      ⟨UpsertAction.rateLimited, none,
        expireStalePending
          [⟨1, "m@example.com", "H1", Status.pending, 5, 0, 900000, none, 3, 0⟩]
          "m@example.com" 61000⟩ ∧
    (⟨1, "m@example.com", "H1", Status.pending, 5, 0, 900000, none, 3, 0⟩ :
        TokenRow) ∈
      expireStalePending
        [⟨1, "m@example.com", "H1", Status.pending, 5, 0, 900000, none, 3, 0⟩]
        "m@example.com" 61000 :=
  C3_sendCount_monotone_bounded_amended.2.2.1
    [⟨1, "m@example.com", "H1", Status.pending, 5, 0, 900000, none, 3, 0⟩]
    ⟨"m@example.com", 5, 15, 60, 3⟩ 61000 2 "TOKD"
    ⟨1, "m@example.com", "H1", Status.pending, 5, 0, 900000, none, 3, 0⟩
    (by decide) (by decide) (by decide) (by decide)

/-! ## Claim C9: owner-mismatch on unsubscribe redemption -/

/-- C9 counterexample: an unsubscribe confirmation for user@example.com is
redeemed while the alias row's stored owner (goto) is the empty string — an
owner different from the confirming subject.  The claim demands an
owner-mismatch conflict with no deletion; the source skips the mismatch check
for an empty stored owner and deletes the alias. -/
theorem C9_empty_owner_deleted_cex :
    jsLowerTrim "" ≠ jsLowerTrim "user@example.com" ∧
    (confirmAction
        ⟨[⟨1, "user@example.com", "654321", Status.pending, 0, 900000, none, 1,
            0, 0, "unsubscribe", "alias1", "example.com"⟩],
         [⟨5, "alias1@example.com", "", true⟩], []⟩
        100 (some "654321") 99 false).1 =
      ForwardResp.okRemoved true "alias1@example.com" ∧
    (confirmAction
        ⟨[⟨1, "user@example.com", "654321", Status.pending, 0, 900000, none, 1,
            0, 0, "unsubscribe", "alias1", "example.com"⟩],
         [⟨5, "alias1@example.com", "", true⟩], []⟩
        100 (some "654321") 99 false).2.aliases = [] := by
  decide

/-- C9 amended: redeeming an unsubscribe confirmation answers not-found when
the alias row is absent; when the stored owner (goto, trimmed and
case-folded) is non-empty and differs from the confirmed subject it answers
an owner-changed conflict and deletes nothing; the delete is performed when
the stored owner equals the confirmed subject — and also when the stored
owner is empty, the case the counterexample exposes. -/
theorem C9_owner_mismatch_amended
    (st : ForwardState) (now : Int) (tok : String) (newAliasId : Nat)
    (r : ConfRow)
    (hjt : jsTrim tok = tok)
    (hvalid : isConfirmationCodeValid tok = true)
    (hlook : getPendingByTokenHashConf st.confs (digestOf tok) now = some r)
    (huniq : st.confs.filter (fun x => x.id == r.id) = [r])
    (hint : jsLowerTrim (if r.intent = "" then "subscribe" else r.intent) =
      "unsubscribe")
    (hem : ¬(jsLowerTrim r.email = ""))
    (han : ¬(jsLowerTrim r.aliasName = ""))
    (had : ¬(jsLowerTrim r.aliasDomain = "")) :
    (getByAddress st.aliases
        (jsLowerTrim r.aliasName ++ "@" ++ jsLowerTrim r.aliasDomain) = none →
      confirmAction st now (some tok) newAliasId false =
        (ForwardResp.aliasNotFound
          (jsLowerTrim r.aliasName ++ "@" ++ jsLowerTrim r.aliasDomain),
         ⟨(markConfirmedByIdConf st.confs r.id now).1, st.aliases,
          st.activeDomains⟩)) ∧
    (∀ row : AliasRow,
      getByAddress st.aliases
        (jsLowerTrim r.aliasName ++ "@" ++ jsLowerTrim r.aliasDomain) =
        some row →
      ¬(row.id = 0) →
      ¬(jsLowerTrim row.goto = "") →
      ¬(jsLowerTrim row.goto = jsLowerTrim r.email) →
      confirmAction st now (some tok) newAliasId false =
        (ForwardResp.ownerChanged
          (jsLowerTrim r.aliasName ++ "@" ++ jsLowerTrim r.aliasDomain),
         ⟨(markConfirmedByIdConf st.confs r.id now).1, st.aliases,
          st.activeDomains⟩)) ∧
    (∀ row : AliasRow,
      getByAddress st.aliases
        (jsLowerTrim r.aliasName ++ "@" ++ jsLowerTrim r.aliasDomain) =
        some row →
      ¬(row.id = 0) →
      jsLowerTrim row.goto = jsLowerTrim r.email →
      confirmAction st now (some tok) newAliasId false =
        (ForwardResp.okRemoved true
          (jsLowerTrim r.aliasName ++ "@" ++ jsLowerTrim r.aliasDomain),
         ⟨(markConfirmedByIdConf st.confs r.id now).1,
          st.aliases.eraseP (fun r2 => r2.address ==
            (jsLowerTrim r.aliasName ++ "@" ++ jsLowerTrim r.aliasDomain)),
          st.activeDomains⟩)) ∧
    (∀ row : AliasRow,
      getByAddress st.aliases
        (jsLowerTrim r.aliasName ++ "@" ++ jsLowerTrim r.aliasDomain) =
        some row →
      ¬(row.id = 0) →
      jsLowerTrim row.goto = "" →
      confirmAction st now (some tok) newAliasId false =
        (ForwardResp.okRemoved true
          (jsLowerTrim r.aliasName ++ "@" ++ jsLowerTrim r.aliasDomain),
         ⟨(markConfirmedByIdConf st.confs r.id now).1,
          st.aliases.eraseP (fun r2 => r2.address ==
            (jsLowerTrim r.aliasName ++ "@" ++ jsLowerTrim r.aliasDomain)),
          st.activeDomains⟩)) := by
  obtain ⟨hmem, hrh, hp, hexp⟩ := confRowLive_of_lookup _ _ _ _ hlook
  have hcount : (markConfirmedByIdConf st.confs r.id now).2 = 1 := by
    unfold markConfirmedByIdConf
    rw [filter_confConfirmMatch_of_unique st.confs r.id now r huniq hp hexp]
    rfl
  refine ⟨?_, ?_, ?_, ?_⟩
  · intro hnone
    unfold confirmAction normalizeConfirmationCode
    simp [hjt, hvalid, hlook, hem, han, had, hint, hcount, hnone]
  · intro row hrow hid hg1 hg2
    unfold confirmAction normalizeConfirmationCode
    simp [hjt, hvalid, hlook, hem, han, had, hint, hcount, hrow, hid, hg1, hg2]
  · intro row hrow hid hg2
    have hany : st.aliases.any (fun r2 => r2.address ==
        (jsLowerTrim r.aliasName ++ "@" ++ jsLowerTrim r.aliasDomain)) =
        true := by
      have hrow2 : st.aliases.find? (fun r2 => r2.address ==
          (jsLowerTrim r.aliasName ++ "@" ++ jsLowerTrim r.aliasDomain)) =
          some row := hrow
      have hpa : (row.address ==
          (jsLowerTrim r.aliasName ++ "@" ++ jsLowerTrim r.aliasDomain)) =
          true := by
        have h3 := List.find?_some hrow2
        simpa using h3
      apply List.any_eq_true.mpr
      exact ⟨row, List.mem_of_find?_eq_some hrow2, hpa⟩
    unfold confirmAction normalizeConfirmationCode deleteByAddress
    simp [hjt, hvalid, hlook, hem, han, had, hint, hcount, hrow, hid, hg2, hany]
  · intro row hrow hid hg0
    have hany : st.aliases.any (fun r2 => r2.address ==
        (jsLowerTrim r.aliasName ++ "@" ++ jsLowerTrim r.aliasDomain)) =
        true := by
      have hrow2 : st.aliases.find? (fun r2 => r2.address ==
          (jsLowerTrim r.aliasName ++ "@" ++ jsLowerTrim r.aliasDomain)) =
          some row := hrow
      have hpa : (row.address ==
          (jsLowerTrim r.aliasName ++ "@" ++ jsLowerTrim r.aliasDomain)) =
          true := by
        have h3 := List.find?_some hrow2
        simpa using h3
      apply List.any_eq_true.mpr
      exact ⟨row, List.mem_of_find?_eq_some hrow2, hpa⟩
    unfold confirmAction normalizeConfirmationCode deleteByAddress
    simp [hjt, hvalid, hlook, hem, han, had, hint, hcount, hrow, hid, hg0, hany]

/-- C9 amended witness: concrete unsubscribe redemption against an alias
whose owner changed to other@example.com: the result is the owner-changed
conflict and the alias row survives. -/
theorem C9_owner_mismatch_amended_witness :
    confirmAction
        ⟨[⟨1, "user@example.com", "654321", Status.pending, 0, 900000, none, 1,
            0, 0, "unsubscribe", "alias1", "example.com"⟩],
         [⟨5, "alias1@example.com", "other@example.com", true⟩], []⟩
        100 (some "654321") 99 false =
      (ForwardResp.ownerChanged "alias1@example.com",
       ⟨(markConfirmedByIdConf
          [⟨1, "user@example.com", "654321", Status.pending, 0, 900000, none, 1,
            0, 0, "unsubscribe", "alias1", "example.com"⟩] 1 100).1,
        [⟨5, "alias1@example.com", "other@example.com", true⟩], []⟩) := by
  have h := C9_owner_mismatch_amended
    ⟨[⟨1, "user@example.com", "654321", Status.pending, 0, 900000, none, 1,
        0, 0, "unsubscribe", "alias1", "example.com"⟩],
     [⟨5, "alias1@example.com", "other@example.com", true⟩], []⟩
    100 "654321" 99
    ⟨1, "user@example.com", "654321", Status.pending, 0, 900000, none, 1,
      0, 0, "unsubscribe", "alias1", "example.com"⟩
    (by decide) (by decide) (by decide) (by decide) (by decide) (by decide)
    (by decide) (by decide)
  exact h.2.1 ⟨5, "alias1@example.com", "other@example.com", true⟩
    (by decide) (by decide) (by decide) (by decide)

end MailFwd
